import Mathlib

/-!
# SentinelDQ drift-detection engine: a shallow embedding

This file embeds the core of the SentinelDQ drift-detection engine
(`drift_engine/`: the profile builders, the three drift detectors, the
`DriftSummary` accumulator and the post-fetch part of `DriftRunner.run`)
into Lean and proves the testable properties stated for it.

Modelling conventions, used throughout:

* Python floats are modelled as real numbers `ℝ`; counts as `ℕ`.
* Python dicts are modelled as insertion-ordered association lists
  (`List (κ × α)`); `dict.get` is `getEntry`, `dict[k] = v` is `setEntry`.
  Keys of a Python dict are unique, so theorems assume `Nodup` keys where
  that matters.
* Time instants (`datetime`) are real numbers measured in hours, so that
  `TimeWindow.duration_hours` is plain subtraction.
* Dotted field paths ("a.b.c") are modelled as segment lists
  `List String`; the Python code joins segments with "." (and splits on
  "."), which is injective as long as record keys contain no dot.  Where a
  `DriftResult` stores a path as its `field_name`, the model stores the
  joined string `pathStr`.
* Python `set` iteration (whose order is unspecified) is replaced by
  insertion-order iteration over the underlying lists; no theorem below
  observes the relative order of findings for distinct fields.
* `DriftResult.baseline_value`, `current_value`, `metadata` and
  `detected_at` (a wall-clock timestamp) are purely diagnostic payload,
  inspected by no claim; they are omitted from the embedded record.
-/

namespace SentinelDQ

/-- Severity levels for drift findings (`Severity` in
`drift_engine/models/drift_result.py`). -/
inductive Severity where
  | info
  | warning
  | critical
deriving DecidableEq, Repr

/-- The string `value` of the Python `Severity` enum member. -/
def Severity.value : Severity → String
  | .info => "INFO"
  | .warning => "WARNING"
  | .critical => "CRITICAL"

/-- Types of drift (`DriftType` in `drift_result.py`). -/
inductive DriftType where
  | schema
  | distribution
  | volume
deriving DecidableEq, Repr

/-- The string `value` of the Python `DriftType` enum member. -/
def DriftType.value : DriftType → String
  | .schema => "schema"
  | .distribution => "distribution"
  | .volume => "volume"

/-- A time range (`TimeWindow`).  Instants are reals measured in hours;
`stop` stands for the Python field `end` (a Lean keyword). -/
structure TimeWindow where
  start : ℝ
  stop : ℝ

/-- `(end - start).total_seconds() / 3600`: with instants in hours this is
plain subtraction. -/
def TimeWindow.duration_hours (w : TimeWindow) : ℝ :=
  w.stop - w.start

/-- A single drift finding (`DriftResult`).  The diagnostic-only fields
`baseline_value`, `current_value`, `metadata`, `detected_at` are omitted. -/
structure DriftResult where
  drift_type : DriftType
  entity : Option String
  field_name : Option String
  baseline_window : TimeWindow
  current_window : TimeWindow
  metric_name : String
  drift_score : ℝ
  severity : Severity

/-- Dictionary lookup `d.get(k)` on an insertion-ordered association list
(first matching entry wins, as for a Python dict with unique keys). -/
def getEntry {κ α : Type} [DecidableEq κ] : List (κ × α) → κ → Option α
  | [], _ => none
  | (k', v) :: rest, k => if k' = k then some v else getEntry rest k

/-- Dictionary update `d[k] = v`: replace the entry of an existing key in
place, else append a new entry (Python dicts keep insertion order). -/
def setEntry {κ α : Type} [DecidableEq κ] : List (κ × α) → κ → α → List (κ × α)
  | [], k, v => [(k, v)]
  | (k', w) :: rest, k, v =>
      if k' = k then (k', v) :: rest else (k', w) :: setEntry rest k v

/-- `d[key] = d.get(key, 0) + 1` on an insertion-ordered dict of counts. -/
def bumpCount : List (String × ℕ) → String → List (String × ℕ)
  | [], k => [(k, 1)]
  | (k', n) :: rest, k =>
      if k' = k then (k', n + 1) :: rest else (k', n) :: bumpCount rest k

/-- Aggregated summary of one drift run (`DriftSummary`). -/
structure DriftSummary where
  run_timestamp : ℝ
  baseline_window : TimeWindow
  current_window : TimeWindow
  total_checks : ℕ
  total_drifts : ℕ
  critical_count : ℕ
  warning_count : ℕ
  info_count : ℕ
  drifts_by_type : List (String × ℕ)
  results : List DriftResult

/-- `DriftSummary.add_result`: append the result, bump `total_drifts`, and
bump exactly one severity counter following the `if/elif/else` chain of the
source, plus the per-type count. -/
def DriftSummary.add_result (s : DriftSummary) (r : DriftResult) : DriftSummary :=
  { s with
    results := s.results ++ [r]
    total_drifts := s.total_drifts + 1
    critical_count :=
      if r.severity = .critical then s.critical_count + 1 else s.critical_count
    warning_count :=
      if r.severity = .warning then s.warning_count + 1 else s.warning_count
    info_count :=
      if r.severity ≠ .critical ∧ r.severity ≠ .warning then s.info_count + 1
      else s.info_count
    drifts_by_type := bumpCount s.drifts_by_type r.drift_type.value }

/-! ## JSON-like record values and nested-field flattening -/

/-- A JSON-compatible value, as fetched from the store: strings, numbers
(Python `int` and `float` kept distinct), booleans, null, nested objects
and arrays.  Objects are insertion-ordered association lists. -/
inductive Value where
  | vNull : Value
  | vBool : Bool → Value
  | vInt : Int → Value
  | vFloat : ℚ → Value
  | vStr : String → Value
  | vArr : List Value → Value
  | vObj : List (String × Value) → Value

/-- One raw record: a JSON object's key/value pairs. -/
abbrev Record := List (String × Value)

/-- `value is None`. -/
def Value.isNull : Value → Bool
  | .vNull => true
  | _ => false

/-- `type(value).__name__` for the leaf values that can appear in a
flattened record. -/
def typeName : Value → String
  | .vNull => "NoneType"
  | .vBool _ => "bool"
  | .vInt _ => "int"
  | .vFloat _ => "float"
  | .vStr _ => "str"
  | .vArr _ => "list"
  | .vObj _ => "dict"

/-- Python `str(value)`.  Only categorical tallies observe this rendering,
and every claim treats rendered values as opaque atoms, so the exact
spelling for numbers is immaterial; booleans follow Python (`"True"`). -/
def valueToStr : Value → String
  | .vNull => "None"
  | .vBool b => if b then "True" else "False"
  | .vInt n => toString n
  | .vFloat q => toString q
  | .vStr s => s
  | .vArr _ => "<array>"
  | .vObj _ => "<object>"

mutual
/-- The body of `_flatten_dict`'s loop for one `(key, value)` item:
nested objects recurse, arrays collapse to the placeholder string
`"<array[n]>"`, every other value (including null) is a leaf. -/
def flattenVal (key : List String) : Value → List (List String × Value)
  | .vObj pairs => flattenPairs key pairs
  | .vArr elems => [(key, .vStr ("<array[" ++ toString elems.length ++ "]>"))]
  | v => [(key, v)]

/-- `SchemaProfile._flatten_dict`: flatten a nested object into dotted
paths (modelled as segment lists) with their leaf values. -/
def flattenPairs (pfx : List String) : List (String × Value) → List (List String × Value)
  | [] => []
  | (k, v) :: rest => flattenVal (pfx ++ [k]) v ++ flattenPairs pfx rest
end

/-- Join a segment-list path back into the dotted string the Python code
carries around. -/
def pathStr (p : List String) : String :=
  String.intercalate "." p

/-! ## Schema profile builder (`profiles/schema_profile.py`) -/

/-- Per-field schema metadata (the dict stored in `SchemaProfile.fields`). -/
structure SchemaFieldInfo where
  type : String
  nullable : Bool
  null_ratio : ℝ
  present_count : ℕ
  presence_ratio : ℝ
  cardinality : ℕ
  cardinality_exact : Bool

/-- The schema profile of one batch. -/
structure SchemaProfile where
  fields : List (List String × SchemaFieldInfo)
  row_count : ℕ

instance : Inhabited SchemaFieldInfo :=
  ⟨⟨"null", false, 0, 0, 0, 0, true⟩⟩

/-- `SchemaProfile.get_field_names`. -/
def SchemaProfile.get_field_names (p : SchemaProfile) : List (List String) :=
  p.fields.map Prod.fst

/-- Deduplication keeping the FIRST occurrence of each element, matching
the insertion order of a Python dict built by accumulation. -/
def firstDedup {α : Type} [DecidableEq α] : List α → List α
  | [] => []
  | x :: rest => x :: (firstDedup rest).filter (fun y => y ≠ x)

/-- `round(x, 4)`: round to four decimal places.  (Python's float `round`
is round-half-to-even at exact midpoints; no claim observes midpoints.) -/
noncomputable def round4 (x : ℝ) : ℝ :=
  (round (x * 10000) : ℤ) / 10000

/-- The field paths seen in any record of the batch, in first-seen order
(the key order of the Python `field_stats` defaultdict). -/
def schemaPaths (recs : List Record) : List (List String) :=
  firstDedup (recs.flatMap (fun r => (flattenPairs [] r).map Prod.fst))

/-- The stream of leaf values observed at path `p` over the batch, in
record order. -/
def pathValues (recs : List Record) (p : List String) : List Value :=
  recs.flatMap (fun r =>
    (flattenPairs [] r).filterMap (fun q => if q.1 = p then some q.2 else none))

/-- One step of the bounded unique-value accumulation: `if len(set) <
max_cardinality_track: set.add(v)` (sets are modelled as nodup lists in
insertion order). -/
def addBounded (maxTrack : ℕ) (acc : List String) (v : String) : List String :=
  if acc.length < maxTrack then (if v ∈ acc then acc else acc ++ [v]) else acc

/-- The bounded unique-value set accumulated over a value stream. -/
def uniqueValues (maxTrack : ℕ) (vals : List String) : List String :=
  vals.foldl (addBounded maxTrack) []

/-- Frequency tally of a list of strings in first-seen order (a Python
`Counter` / `defaultdict(int)` built by one pass). -/
def tally (l : List String) : List (String × ℕ) :=
  (firstDedup l).map (fun v => (v, l.count v))

/-- `max(types.items(), key=...)`: the most frequent entry, first-seen
entry winning ties (Python `max` returns the first maximal element);
`"null"` when the histogram is empty. -/
def dominantType (hist : List (String × ℕ)) : String :=
  match hist with
  | [] => "null"
  | h :: t => (t.foldl (fun best x => if x.2 > best.2 then x else best) h).1

/-- The per-path stats assembled by `SchemaProfile.from_records` for one
field path. -/
noncomputable def schemaFieldInfoOf (recs : List Record)
    (max_cardinality_track : ℕ) (p : List String) : SchemaFieldInfo :=
  let vals := pathValues recs p
  let row_count := recs.length
  let null_count := (vals.filter (fun v => v.isNull)).length
  let nonNull := vals.filter (fun v => ¬ v.isNull)
  let hist := tally (nonNull.map typeName)
  let uniq := uniqueValues max_cardinality_track (nonNull.map valueToStr)
  { type := dominantType hist
    nullable := null_count > 0
    null_ratio := round4 (if row_count > 0 then (null_count : ℝ) / row_count else 0)
    present_count := vals.length
    presence_ratio := round4 ((vals.length : ℝ) / row_count)
    cardinality := uniq.length
    cardinality_exact := uniq.length < max_cardinality_track }

/-- `SchemaProfile.from_records`: an empty batch yields an empty profile;
otherwise one stats entry per first-seen field path. -/
noncomputable def SchemaProfile.from_records (recs : List Record)
    (max_cardinality_track : ℕ) : SchemaProfile :=
  if recs.isEmpty then { fields := [], row_count := recs.length }
  else
    { fields := (schemaPaths recs).map
        (fun p => (p, schemaFieldInfoOf recs max_cardinality_track p))
      row_count := recs.length }

/-! ## Schema drift detector (`detectors/schema_drift.py`) -/

/-- Schema-drift thresholds (defaults 2.0 and 5.0 in the source). -/
structure SchemaConfig where
  cardinality_warning_ratio : ℝ
  cardinality_critical_ratio : ℝ

/-- The finding emitted for a field present only in the current profile. -/
def addedResult (w1 w2 : TimeWindow) (f : List String) (info : SchemaFieldInfo) :
    DriftResult :=
  { drift_type := .schema
    entity := some "schema"
    field_name := some (pathStr f)
    baseline_window := w1
    current_window := w2
    metric_name := "field_added"
    drift_score := if info.nullable then 0.5 else 0.8
    severity := if info.nullable then .info else .warning }

/-- The finding emitted for a field present only in the baseline profile:
always CRITICAL with score 1.0. -/
def removedResult (w1 w2 : TimeWindow) (f : List String)
    (_info : SchemaFieldInfo) : DriftResult :=
  { drift_type := .schema
    entity := some "schema"
    field_name := some (pathStr f)
    baseline_window := w1
    current_window := w2
    metric_name := "field_removed"
    drift_score := 1
    severity := .critical }

/-- The type-change check for a field present in both profiles. -/
def typeChangeResults (w1 w2 : TimeWindow) (f : List String)
    (bi ci : SchemaFieldInfo) : List DriftResult :=
  if bi.type ≠ ci.type then
    [{ drift_type := .schema
       entity := some "schema"
       field_name := some (pathStr f)
       baseline_window := w1
       current_window := w2
       metric_name := "type_change"
       drift_score := 1
       severity := .critical }]
  else []

/-- The cardinality-explosion check for a field present in both profiles:
only runs when both cardinalities are nonzero; the CRITICAL tier clamps
`ratio / 10` at 1, the WARNING tier does not. -/
noncomputable def cardinalityResults (cfg : SchemaConfig) (w1 w2 : TimeWindow)
    (f : List String) (bi ci : SchemaFieldInfo) : List DriftResult :=
  if bi.cardinality > 0 ∧ ci.cardinality > 0 then
    let card_ratio : ℝ := (ci.cardinality : ℝ) / (bi.cardinality : ℝ)
    if card_ratio ≥ cfg.cardinality_critical_ratio then
      [{ drift_type := .schema
         entity := some "schema"
         field_name := some (pathStr f)
         baseline_window := w1
         current_window := w2
         metric_name := "cardinality_explosion"
         drift_score := min 1 (card_ratio / 10)
         severity := .critical }]
    else if card_ratio ≥ cfg.cardinality_warning_ratio then
      [{ drift_type := .schema
         entity := some "schema"
         field_name := some (pathStr f)
         baseline_window := w1
         current_window := w2
         metric_name := "cardinality_explosion"
         drift_score := card_ratio / 10
         severity := .warning }]
    else []
  else []

/-- `SchemaDriftDetector.detect`: additions, removals, then type-change
and cardinality checks for common fields.  Set iteration is replaced by
insertion-order iteration over the profiles' field lists. -/
noncomputable def SchemaDriftDetector.detect (cfg : SchemaConfig)
    (baseline_profile current_profile : SchemaProfile)
    (baseline_window current_window : TimeWindow) : List DriftResult :=
  let baseline_fields := baseline_profile.get_field_names
  let current_fields := current_profile.get_field_names
  let added := current_profile.fields.filterMap (fun fi =>
    if fi.1 ∈ baseline_fields then none
    else some (addedResult baseline_window current_window fi.1 fi.2))
  let removed := baseline_profile.fields.filterMap (fun fi =>
    if fi.1 ∈ current_fields then none
    else some (removedResult baseline_window current_window fi.1 fi.2))
  let commonChecks := baseline_profile.fields.flatMap (fun fi =>
    match getEntry current_profile.fields fi.1 with
    | none => []
    | some ci =>
        typeChangeResults baseline_window current_window fi.1 fi.2 ci ++
        cardinalityResults cfg baseline_window current_window fi.1 fi.2 ci)
  added ++ removed ++ commonChecks

/-! ## Statistical profile builder (`profiles/statistical_profile.py`) -/

/-- Numerical field statistics (the dict stored in
`StatisticalProfile.numerical`). -/
structure NumStats where
  mean : ℝ
  std : ℝ
  min : ℝ
  max : ℝ
  p50 : ℝ
  p95 : ℝ
  p99 : ℝ

/-- The statistical profile of one batch. -/
structure StatisticalProfile where
  categorical : List (String × List (String × ℝ))
  numerical : List (String × NumStats)
  null_ratios : List (String × ℝ)
  row_count : ℕ

/-- `field_path.split('.')` on the underlying character list (structural
implementation of Python `str.split`, so that it evaluates by
reduction). -/
def splitDots : List Char → List String
  | [] => [""]
  | c :: rest =>
    let r := splitDots rest
    if c = '.' then "" :: r
    else String.mk (c :: (r.headD "").toList) :: r.tail

/-- `field_path.split('.')`. -/
def splitPath (s : String) : List String :=
  splitDots s.toList

/-- `_extract_field`'s loop over the dotted-path parts: at each step the
current value must be an object, a missing key or an explicit null aborts
with `none`. -/
def extractParts : Value → List String → Option Value
  | v, [] => some v
  | .vObj pairs, part :: rest =>
      match getEntry pairs part with
      | none => none
      | some v => if v.isNull then none else extractParts v rest
  | _, _ :: _ => none

/-- `_extract_field(record, field_path)` (identical in the statistical and
volume profilers): dotted-path lookup, null on any failure. -/
def extractField (r : Record) (field_path : String) : Option Value :=
  extractParts (.vObj r) (splitPath field_path)

/-- Python `float(value)`: numbers coerce, booleans coerce to 0/1; other
values (modelled conservatively: also numeric strings) fail, which the
profiler treats as null. -/
def floatOfValue : Value → Option ℚ
  | .vInt n => some (n : ℚ)
  | .vFloat q => some q
  | .vBool b => some (if b then 1 else 0)
  | _ => none

/-- `Counter.most_common()`: entries sorted by count, descending, stable
(ties keep first-seen order). -/
def mostCommon (c : List (String × ℕ)) : List (String × ℕ) :=
  c.mergeSort (fun a b => b.2 ≤ a.2)

/-- `_percentile(sorted_values, percentile)`: linear interpolation between
the two order statistics bracketing index `percentile/100 × (n−1)`. -/
noncomputable def percentileCalc (sorted_values : List ℝ) (percentile : ℕ) : ℝ :=
  if sorted_values.isEmpty then 0
  else
    let n := sorted_values.length
    let index : ℚ := (percentile : ℚ) / 100 * ((n : ℚ) - 1)
    if index.den = 1 then sorted_values.getD index.num.toNat 0
    else
      let lower := sorted_values.getD ⌊index⌋.toNat 0
      let upper := sorted_values.getD (⌊index⌋.toNat + 1) 0
      let fraction : ℚ := index - ⌊index⌋
      lower + (upper - lower) * (fraction : ℝ)

/-- The categorical pass of `StatisticalProfile.from_records` for one
field, threading the `(categorical, null_ratios)` state. -/
noncomputable def categoricalStep (recs : List Record) (row_count max_categories : ℕ)
    (st : List (String × List (String × ℝ)) × List (String × ℝ)) (field : String) :
    List (String × List (String × ℝ)) × List (String × ℝ) :=
  let values := recs.filterMap (fun r => (extractField r field).map valueToStr)
  let null_count := (recs.filter (fun r => (extractField r field).isNone)).length
  let nulls := setEntry st.2 field
    (if row_count > 0 then (null_count : ℝ) / row_count else 0)
  let cat :=
    if values.isEmpty then st.1
    else
      let counter := tally values
      if counter.length ≤ max_categories then
        setEntry st.1 field
          ((mostCommon counter).map (fun p => (p.1, (p.2 : ℝ) / values.length)))
      else st.1
  (cat, nulls)

/-- The numerical pass of `StatisticalProfile.from_records` for one field,
threading the `(numerical, null_ratios)` state; a failed `float()` coercion
counts as null. -/
noncomputable def numericalStep (recs : List Record) (row_count : ℕ)
    (st : List (String × NumStats) × List (String × ℝ)) (field : String) :
    List (String × NumStats) × List (String × ℝ) :=
  let values : List ℝ :=
    recs.filterMap (fun r => ((extractField r field).bind floatOfValue).map (fun q => (q : ℝ)))
  let null_count :=
    (recs.filter (fun r => ((extractField r field).bind floatOfValue).isNone)).length
  let nulls := setEntry st.2 field
    (if row_count > 0 then (null_count : ℝ) / row_count else 0)
  let num :=
    if values.isEmpty then st.1
    else
      let sorted_values := values.mergeSort (fun a b => a ≤ b)
      let n := values.length
      let mean_val := values.sum / (n : ℝ)
      let variance := (values.map (fun x => (x - mean_val) ^ 2)).sum / (n : ℝ)
      let std_val := Real.sqrt variance
      setEntry st.1 field
        { mean := round4 mean_val
          std := round4 std_val
          min := sorted_values.getD 0 0
          max := sorted_values.getLastD 0
          p50 := percentileCalc sorted_values 50
          p95 := percentileCalc sorted_values 95
          p99 := percentileCalc sorted_values 99 }
  (num, nulls)

/-- `StatisticalProfile.from_records`: categorical pass then numerical
pass (each may overwrite a field's `null_ratios` entry, as the Python dict
assignment does); an empty batch yields an empty profile. -/
noncomputable def StatisticalProfile.from_records (recs : List Record)
    (categorical_fields numerical_fields : List String) (max_categories : ℕ) :
    StatisticalProfile :=
  let row_count := recs.length
  if recs.isEmpty then
    { categorical := [], numerical := [], null_ratios := [], row_count := row_count }
  else
    let catSt := categorical_fields.foldl
      (categoricalStep recs row_count max_categories) ([], [])
    let numSt := numerical_fields.foldl
      (numericalStep recs row_count) ([], catSt.2)
    { categorical := catSt.1
      numerical := numSt.1
      null_ratios := numSt.2
      row_count := row_count }

/-! ## Volume profile builder (`profiles/volume_profile.py`) -/

/-- The volume profile of one batch. -/
structure VolumeProfile where
  total_count : ℕ
  per_entity : List (String × List (String × ℕ))

/-- `VolumeProfile.from_records`: per entity field, tally the non-null
extracted values and keep the top-N by count. -/
def VolumeProfile.from_records (recs : List Record)
    (entity_fields : List String) (top_n : ℕ) : VolumeProfile :=
  if recs.isEmpty then { total_count := recs.length, per_entity := [] }
  else
    { total_count := recs.length
      per_entity := entity_fields.foldl (fun acc field =>
        let values := recs.filterMap (fun r => (extractField r field).map valueToStr)
        if values.isEmpty then acc
        else setEntry acc field ((mostCommon (tally values)).take top_n)) [] }

/-! ## Distribution drift detector (`detectors/distribution_drift.py`) -/

/-- Distribution-drift thresholds (source defaults: PSI 0.1/0.25, null
ratio 0.1/0.25).  The `ks_test` p-values are read from the config but
never used by the detector, so they are not modelled. -/
structure DistConfig where
  psi_info_threshold : ℝ
  psi_warning_threshold : ℝ
  null_warning_threshold : ℝ
  null_critical_threshold : ℝ

/-- The `1e-10` floor used by the PSI computation. -/
noncomputable def psiEps : ℝ := 1 / 10 ^ 10

/-- Fetch a proportion with default `1e-10`, then clamp it to the `1e-10`
floor (`dist.get(value, 1e-10)` followed by the `< 1e-10` check). -/
noncomputable def clampedProp (dist : List (String × ℝ)) (v : String) : ℝ :=
  let p := (getEntry dist v).getD psiEps
  if p < psiEps then psiEps else p

/-- One summand of the PSI:
`(current% − baseline%) × ln(current% / baseline%)`. -/
noncomputable def psiTerm (baseline_dist current_dist : List (String × ℝ))
    (v : String) : ℝ :=
  let baseline_pct := clampedProp baseline_dist v
  let current_pct := clampedProp current_dist v
  (current_pct - baseline_pct) * Real.log (current_pct / baseline_pct)

/-- The PSI accumulator before the final `abs`: the sum over the union of
observed values. -/
noncomputable def psiSum (baseline_dist current_dist : List (String × ℝ)) : ℝ :=
  let all_values :=
    firstDedup (baseline_dist.map Prod.fst ++ current_dist.map Prod.fst)
  (all_values.map (psiTerm baseline_dist current_dist)).sum

/-- `DistributionDriftDetector._calculate_psi`. -/
noncomputable def DistributionDriftDetector.calculate_psi
    (baseline_dist current_dist : List (String × ℝ)) : ℝ :=
  |psiSum baseline_dist current_dist|

/-- The per-field body of `_detect_categorical_drift`: PSI against the two
thresholds; the CRITICAL tier clamps `psi / 0.5` at 1, the WARNING tier
does not; below the info threshold no finding. -/
noncomputable def categoricalFinding (cfg : DistConfig) (w1 w2 : TimeWindow)
    (field : String) (baseline_dist current_dist : List (String × ℝ)) :
    Option DriftResult :=
  let psi_score := DistributionDriftDetector.calculate_psi baseline_dist current_dist
  if psi_score ≥ cfg.psi_warning_threshold then
    some { drift_type := .distribution
           entity := some "categorical"
           field_name := some field
           baseline_window := w1
           current_window := w2
           metric_name := "psi"
           drift_score := min 1 (psi_score / 0.5)
           severity := .critical }
  else if psi_score ≥ cfg.psi_info_threshold then
    some { drift_type := .distribution
           entity := some "categorical"
           field_name := some field
           baseline_window := w1
           current_window := w2
           metric_name := "psi"
           drift_score := psi_score / 0.5
           severity := .warning }
  else none

/-- `_detect_categorical_drift` over the categorical fields common to both
profiles. -/
noncomputable def detectCategoricalDrift (cfg : DistConfig)
    (baseline_profile current_profile : StatisticalProfile)
    (w1 w2 : TimeWindow) : List DriftResult :=
  baseline_profile.categorical.filterMap (fun fd =>
    match getEntry current_profile.categorical fd.1 with
    | none => none
    | some current_dist => categoricalFinding cfg w1 w2 fd.1 fd.2 current_dist)

/-- `|current_mean − baseline_mean| / baseline_std`, 0 when the baseline
standard deviation is not positive. -/
noncomputable def meanShift (baseline_stats current_stats : NumStats) : ℝ :=
  if baseline_stats.std > 0 then
    |current_stats.mean - baseline_stats.mean| / baseline_stats.std
  else 0

/-- The per-field body of `_detect_numerical_drift`: hard-coded mean-shift
thresholds 3.0 / 2.0 / 1.0 mapping to CRITICAL / WARNING / INFO; below 1.0
no finding. -/
noncomputable def numericalFinding (w1 w2 : TimeWindow) (field : String)
    (baseline_stats current_stats : NumStats) : Option DriftResult :=
  let mean_shift := meanShift baseline_stats current_stats
  if mean_shift ≥ 3 then
    some { drift_type := .distribution
           entity := some "numerical"
           field_name := some field
           baseline_window := w1
           current_window := w2
           metric_name := "mean_shift"
           drift_score := min 1 (mean_shift / 5)
           severity := .critical }
  else if mean_shift ≥ 2 then
    some { drift_type := .distribution
           entity := some "numerical"
           field_name := some field
           baseline_window := w1
           current_window := w2
           metric_name := "mean_shift"
           drift_score := mean_shift / 5
           severity := .warning }
  else if mean_shift ≥ 1 then
    some { drift_type := .distribution
           entity := some "numerical"
           field_name := some field
           baseline_window := w1
           current_window := w2
           metric_name := "mean_shift"
           drift_score := mean_shift / 5
           severity := .info }
  else none

/-- `_detect_numerical_drift` over the numerical fields common to both
profiles. -/
noncomputable def detectNumericalDrift (baseline_profile current_profile : StatisticalProfile)
    (w1 w2 : TimeWindow) : List DriftResult :=
  baseline_profile.numerical.filterMap (fun fd =>
    match getEntry current_profile.numerical fd.1 with
    | none => none
    | some current_stats => numericalFinding w1 w2 fd.1 fd.2 current_stats)

/-- The per-field body of `_detect_null_ratio_drift`: absolute null-ratio
change against the two configured thresholds; the CRITICAL tier clamps
`change / 0.5` at 1, the WARNING tier does not. -/
noncomputable def nullRatioFinding (cfg : DistConfig) (w1 w2 : TimeWindow)
    (field : String) (baseline_null_ratio current_null_ratio : ℝ) :
    Option DriftResult :=
  let null_ratio_change := |current_null_ratio - baseline_null_ratio|
  if null_ratio_change ≥ cfg.null_critical_threshold then
    some { drift_type := .distribution
           entity := some "null_ratio"
           field_name := some field
           baseline_window := w1
           current_window := w2
           metric_name := "null_ratio_change"
           drift_score := min 1 (null_ratio_change / 0.5)
           severity := .critical }
  else if null_ratio_change ≥ cfg.null_warning_threshold then
    some { drift_type := .distribution
           entity := some "null_ratio"
           field_name := some field
           baseline_window := w1
           current_window := w2
           metric_name := "null_ratio_change"
           drift_score := null_ratio_change / 0.5
           severity := .warning }
  else none

/-- `_detect_null_ratio_drift` over the null-ratio-tracked fields common
to both profiles. -/
noncomputable def detectNullRatioDrift (cfg : DistConfig)
    (baseline_profile current_profile : StatisticalProfile)
    (w1 w2 : TimeWindow) : List DriftResult :=
  baseline_profile.null_ratios.filterMap (fun fd =>
    match getEntry current_profile.null_ratios fd.1 with
    | none => none
    | some current_null_ratio => nullRatioFinding cfg w1 w2 fd.1 fd.2 current_null_ratio)

/-- `DistributionDriftDetector.detect`: the three independent sub-checks,
concatenated. -/
noncomputable def DistributionDriftDetector.detect (cfg : DistConfig)
    (baseline_profile current_profile : StatisticalProfile)
    (w1 w2 : TimeWindow) : List DriftResult :=
  detectCategoricalDrift cfg baseline_profile current_profile w1 w2 ++
  detectNumericalDrift baseline_profile current_profile w1 w2 ++
  detectNullRatioDrift cfg baseline_profile current_profile w1 w2

/-! ## Volume drift detector (`detectors/volume_drift.py`) -/

/-- Volume-drift thresholds (source defaults: z-score 2.0/3.0, percent
change 0.20/0.50). -/
structure VolumeConfig where
  z_score_info_threshold : ℝ
  z_score_warning_threshold : ℝ
  percent_info_threshold : ℝ
  percent_warning_threshold : ℝ

/-- The z-score block of `_detect_global_volume_drift` (named here so the
surrounding if-chain stays flat): with ≥2 historical profiles, a
population z-score of the current rate against the historical rates
(falling back to 10% of the baseline rate when their variance is zero);
otherwise the plain 10%-of-baseline fallback. -/
noncomputable def volumeZScore (baseline_rate current_rate baseline_duration : ℝ)
    (baseline_profiles : List VolumeProfile) : ℝ :=
  if baseline_profiles.length > 1 then
    let historical_rates :=
      baseline_profiles.map (fun p => (p.total_count : ℝ) / baseline_duration)
    let mean_rate := historical_rates.sum / (historical_rates.length : ℝ)
    let variance :=
      (historical_rates.map (fun r => (r - mean_rate) ^ 2)).sum /
        (historical_rates.length : ℝ)
    let std_rate := if variance > 0 then Real.sqrt variance else baseline_rate * 0.1
    if std_rate > 0 then (current_rate - mean_rate) / std_rate else 0
  else
    let std_rate := baseline_rate * 0.1
    if std_rate > 0 then (current_rate - baseline_rate) / std_rate else 0

/-- `(current_rate - baseline_rate) / baseline_rate`, 0 when the baseline
rate is not positive. -/
noncomputable def volumePercentChange (baseline_rate current_rate : ℝ) : ℝ :=
  if baseline_rate > 0 then (current_rate - baseline_rate) / baseline_rate else 0

/-- `_detect_global_volume_drift`: events-per-hour rates, a z-score (from
≥2 historical profiles when supplied, else the 10%-of-baseline fallback),
a percent change, and OR-escalation over the two kinds of thresholds.
Zero duration of either window skips the check.  The Python default
`baseline_profiles=None` is modelled as the empty list. -/
noncomputable def detectGlobalVolumeDrift (cfg : VolumeConfig)
    (baseline_profile current_profile : VolumeProfile)
    (baseline_window current_window : TimeWindow)
    (baseline_profiles : List VolumeProfile) : List DriftResult :=
  let baseline_count := baseline_profile.total_count
  let current_count := current_profile.total_count
  let baseline_duration := baseline_window.duration_hours
  let current_duration := current_window.duration_hours
  if baseline_duration = 0 ∨ current_duration = 0 then []
  else
    let baseline_rate := (baseline_count : ℝ) / baseline_duration
    let current_rate := (current_count : ℝ) / current_duration
    let z_score := volumeZScore baseline_rate current_rate baseline_duration
      baseline_profiles
    let percent_change := volumePercentChange baseline_rate current_rate
    let abs_z_score := |z_score|
    if abs_z_score ≥ cfg.z_score_warning_threshold ∨
        |percent_change| ≥ cfg.percent_warning_threshold then
      [{ drift_type := .volume
         entity := some "global"
         field_name := none
         baseline_window := baseline_window
         current_window := current_window
         metric_name := "event_rate_change"
         drift_score := min 1 (abs_z_score / 5)
         severity := .critical }]
    else if abs_z_score ≥ cfg.z_score_info_threshold ∨
        |percent_change| ≥ cfg.percent_info_threshold then
      [{ drift_type := .volume
         entity := some "global"
         field_name := none
         baseline_window := baseline_window
         current_window := current_window
         metric_name := "event_rate_change"
         drift_score := abs_z_score / 5
         severity := .warning }]
    else []

/-- The per-entity percent change: `(current − baseline) / baseline` for
a positive baseline count, else 1.0 when the current count is positive,
else 0.0. -/
noncomputable def entityPercentChange (baseline_count current_count : ℕ) : ℝ :=
  if baseline_count > 0 then
    ((current_count : ℝ) - (baseline_count : ℝ)) / (baseline_count : ℝ)
  else if current_count > 0 then 1 else 0

/-- The per-entity-value body of `_detect_per_entity_volume_drift`:
percent change in count, WARNING/INFO tiers only (the WARNING tier clamps
the score at 1, the INFO tier does not). -/
noncomputable def perEntityFinding (cfg : VolumeConfig) (w1 w2 : TimeWindow)
    (entity_field entity_value : String) (baseline_count current_count : ℕ) :
    Option DriftResult :=
  let percent_change : ℝ := entityPercentChange baseline_count current_count
  let abs_percent_change := |percent_change|
  if abs_percent_change ≥ cfg.percent_warning_threshold then
    some { drift_type := .volume
           entity := some entity_field
           field_name := some entity_value
           baseline_window := w1
           current_window := w2
           metric_name := "entity_count_change"
           drift_score := min 1 abs_percent_change
           severity := .warning }
  else if abs_percent_change ≥ cfg.percent_info_threshold then
    some { drift_type := .volume
           entity := some entity_field
           field_name := some entity_value
           baseline_window := w1
           current_window := w2
           metric_name := "entity_count_change"
           drift_score := abs_percent_change
           severity := .info }
  else none

/-- `_detect_per_entity_volume_drift` over the entity dimensions common to
both profiles and the entity values present in both top-N lists. -/
noncomputable def detectPerEntityVolumeDrift (cfg : VolumeConfig)
    (baseline_profile current_profile : VolumeProfile)
    (w1 w2 : TimeWindow) : List DriftResult :=
  baseline_profile.per_entity.flatMap (fun ed =>
    match getEntry current_profile.per_entity ed.1 with
    | none => []
    | some current_entities =>
        ed.2.filterMap (fun ev =>
          match getEntry current_entities ev.1 with
          | none => none
          | some current_count => perEntityFinding cfg w1 w2 ed.1 ev.1 ev.2 current_count))

/-- `VolumeDriftDetector.detect`: the global check then the per-entity
check. -/
noncomputable def VolumeDriftDetector.detect (cfg : VolumeConfig)
    (baseline_profile current_profile : VolumeProfile)
    (baseline_window current_window : TimeWindow)
    (baseline_profiles : List VolumeProfile) : List DriftResult :=
  detectGlobalVolumeDrift cfg baseline_profile current_profile
    baseline_window current_window baseline_profiles ++
  detectPerEntityVolumeDrift cfg baseline_profile current_profile
    baseline_window current_window

/-! ## Drift runner (`engine/drift_runner.py`) -/

/-- The configuration the runner reads from `drift_config.yaml`. -/
structure RunnerConfig where
  baseline_days : ℝ
  current_hours : ℝ
  gap_hours : ℝ
  min_sample_size : ℕ
  schema_enabled : Bool
  distribution_enabled : Bool
  volume_enabled : Bool
  schema_thresholds : SchemaConfig
  distribution_thresholds : DistConfig
  volume_thresholds : VolumeConfig
  categorical_fields : List String
  numerical_fields : List String
  max_cardinality_track : ℕ
  categorical_max_categories : ℕ
  top_n_entities : ℕ

/-- `DriftRunner._define_windows`: current = the last `current_hours`
hours before the reference time; baseline = the `baseline_days` days
ending `gap_hours` before the current window starts. -/
def defineWindows (cfg : RunnerConfig) (reference_time : ℝ) :
    TimeWindow × TimeWindow :=
  let current_end := reference_time
  let current_start := current_end - cfg.current_hours
  let baseline_end := current_start - cfg.gap_hours
  let baseline_start := baseline_end - cfg.baseline_days * 24
  (⟨baseline_start, baseline_end⟩, ⟨current_start, current_end⟩)

/-- The empty summary returned by the insufficient-sample short-circuit
(`DriftSummary(..., total_checks=0, total_drifts=0)` with dataclass
defaults for the rest). -/
def emptySummary (t : ℝ) (w1 w2 : TimeWindow) : DriftSummary :=
  { run_timestamp := t
    baseline_window := w1
    current_window := w2
    total_checks := 0
    total_drifts := 0
    critical_count := 0
    warning_count := 0
    info_count := 0
    drifts_by_type := []
    results := [] }

/-- `DriftRunner.run` from the sample-size check on: the data fetch and
result persistence are external I/O, so the fetched record lists are
parameters and persistence is dropped (it does not affect the returned
summary).  Each enabled detector adds its findings via `add_result` and
bumps `total_checks` by its own count. -/
noncomputable def DriftRunner.run (cfg : RunnerConfig) (reference_time : ℝ)
    (baseline_data current_data : List Record) : DriftSummary :=
  let w := defineWindows cfg reference_time
  let baseline_window := w.1
  let current_window := w.2
  if baseline_data.length < cfg.min_sample_size then
    emptySummary reference_time baseline_window current_window
  else if current_data.length < cfg.min_sample_size then
    emptySummary reference_time baseline_window current_window
  else
    let baseline_schema_profile :=
      SchemaProfile.from_records baseline_data cfg.max_cardinality_track
    let current_schema_profile :=
      SchemaProfile.from_records current_data cfg.max_cardinality_track
    let baseline_stat_profile := StatisticalProfile.from_records baseline_data
      cfg.categorical_fields cfg.numerical_fields cfg.categorical_max_categories
    let current_stat_profile := StatisticalProfile.from_records current_data
      cfg.categorical_fields cfg.numerical_fields cfg.categorical_max_categories
    let baseline_volume_profile :=
      VolumeProfile.from_records baseline_data cfg.categorical_fields cfg.top_n_entities
    let current_volume_profile :=
      VolumeProfile.from_records current_data cfg.categorical_fields cfg.top_n_entities
    let summary0 := emptySummary reference_time baseline_window current_window
    let summary1 :=
      if cfg.schema_enabled then
        let schema_drifts := SchemaDriftDetector.detect cfg.schema_thresholds
          baseline_schema_profile current_schema_profile baseline_window current_window
        let s := schema_drifts.foldl DriftSummary.add_result summary0
        { s with total_checks := s.total_checks +
            (baseline_schema_profile.fields.length + current_schema_profile.fields.length) }
      else summary0
    let summary2 :=
      if cfg.distribution_enabled then
        let distribution_drifts := DistributionDriftDetector.detect
          cfg.distribution_thresholds baseline_stat_profile current_stat_profile
          baseline_window current_window
        let s := distribution_drifts.foldl DriftSummary.add_result summary1
        { s with total_checks := s.total_checks +
            (baseline_stat_profile.categorical.length + baseline_stat_profile.numerical.length) }
      else summary1
    let summary3 :=
      if cfg.volume_enabled then
        let volume_drifts := VolumeDriftDetector.detect cfg.volume_thresholds
          baseline_volume_profile current_volume_profile baseline_window current_window []
        let s := volume_drifts.foldl DriftSummary.add_result summary2
        { s with total_checks := s.total_checks +
            (1 + baseline_volume_profile.per_entity.length) }
      else summary2
    summary3

/-! ## The summary tally invariant -/

/-- The tallies-recount invariant of `DriftSummary`: `total_drifts` equals
the number of accumulated results, each severity counter equals a recount
over `results`, and the per-type dict entry for every type string equals a
recount over `results` (absent entries counting as zero). -/
def summaryInv (s : DriftSummary) : Prop :=
  s.total_drifts = s.results.length ∧
  s.critical_count = (s.results.filter (fun r => r.severity = .critical)).length ∧
  s.warning_count = (s.results.filter (fun r => r.severity = .warning)).length ∧
  s.info_count = (s.results.filter (fun r => r.severity = .info)).length ∧
  ∀ t : String, (getEntry s.drifts_by_type t).getD 0 =
    (s.results.filter (fun r => r.drift_type.value = t)).length

/-! # Theorems -/

/-- `bumpCount` increments the looked-up count of its key (a missing entry
counts as zero). -/
theorem getEntry_bumpCount_self (l : List (String × ℕ)) (k : String) :
    getEntry (bumpCount l k) k = some ((getEntry l k).getD 0 + 1) := by
  induction l with
  | nil => simp [bumpCount, getEntry]
  | cons hd tl ih =>
    obtain ⟨k', n⟩ := hd
    by_cases hk : k' = k
    · subst hk
      simp [bumpCount, getEntry]
    · simp [bumpCount, getEntry, hk, ih]

/-- `bumpCount` leaves every other key's count unchanged. -/
theorem getEntry_bumpCount_ne (l : List (String × ℕ)) (k t : String)
    (hne : t ≠ k) : getEntry (bumpCount l k) t = getEntry l t := by
  induction l with
  | nil => simp [bumpCount, getEntry, Ne.symm hne]
  | cons hd tl ih =>
    obtain ⟨k', n⟩ := hd
    by_cases hk : k' = k
    · subst hk
      simp [bumpCount, getEntry, Ne.symm hne]
    · by_cases ht : k' = t
      · subst ht
        simp [bumpCount, getEntry, hk]
      · simp [bumpCount, getEntry, hk, ht, ih]

/-- A single `add_result` call preserves the tally invariant. -/
theorem add_result_preserves {s : DriftSummary} (h : summaryInv s)
    (r : DriftResult) : summaryInv (s.add_result r) := by
  obtain ⟨h1, h2, h3, h4, h5⟩ := h
  refine ⟨?_, ?_, ?_, ?_, ?_⟩
  · simp [DriftSummary.add_result, h1]
  · by_cases hr : r.severity = .critical <;>
      simp [DriftSummary.add_result, List.filter_append, h2, hr]
  · by_cases hr : r.severity = .warning <;>
      simp [DriftSummary.add_result, List.filter_append, h3, hr]
  · rcases hsev : r.severity with _ | _ | _ <;>
      simp [DriftSummary.add_result, List.filter_append, h4, hsev]
  · intro t
    by_cases ht : t = r.drift_type.value
    · subst ht
      simp only [DriftSummary.add_result]
      rw [getEntry_bumpCount_self]
      simp [List.filter_append, h5 r.drift_type.value]
    · simp only [DriftSummary.add_result]
      rw [getEntry_bumpCount_ne _ _ _ ht]
      simp [List.filter_append, h5 t, Ne.symm ht]

/-- **C1**: for every `DriftSummary` satisfying the tally invariant (as
every summary the engine constructs does: all counters start at zero with
no results) and every sequence of `add_result` calls, the invariant holds
after the calls: `total_drifts` equals `len(results)` and every
severity/type tally equals a recount over `results`.  Instantiating `rs`
at each prefix of a call sequence gives the invariant after every call. -/
theorem c1_add_result_invariant (s : DriftSummary) (h : summaryInv s)
    (rs : List DriftResult) : summaryInv (rs.foldl DriftSummary.add_result s) := by
  induction rs generalizing s with
  | nil => exact h
  | cons r rest ih => exact ih _ (add_result_preserves h r)

/-- The freshly-constructed empty summary satisfies the tally invariant. -/
theorem summaryInv_emptySummary (t : ℝ) (w1 w2 : TimeWindow) :
    summaryInv (emptySummary t w1 w2) := by
  refine ⟨rfl, rfl, rfl, rfl, ?_⟩
  intro s
  simp [emptySummary, getEntry]

/-- Witness for C1: a concrete empty summary satisfies the invariant, and
after adding one concrete result the invariant still holds. -/
theorem c1_add_result_invariant_witness :
    summaryInv (emptySummary 0 ⟨0, 24⟩ ⟨24, 25⟩) ∧
    summaryInv ([{ drift_type := .schema
                   entity := some "schema"
                   field_name := some "x"
                   baseline_window := ⟨0, 24⟩
                   current_window := ⟨24, 25⟩
                   metric_name := "field_removed"
                   drift_score := 1
                   severity := .critical }].foldl DriftSummary.add_result
      (emptySummary 0 ⟨0, 24⟩ ⟨24, 25⟩)) :=
  ⟨summaryInv_emptySummary 0 ⟨0, 24⟩ ⟨24, 25⟩,
   c1_add_result_invariant _ (summaryInv_emptySummary 0 ⟨0, 24⟩ ⟨24, 25⟩) _⟩

/-- A successful dict lookup means the key occurs among the keys. -/
theorem getEntry_mem_keys {κ α : Type} [DecidableEq κ] {l : List (κ × α)}
    {k : κ} {v : α} (h : getEntry l k = some v) : k ∈ l.map Prod.fst := by
  induction l with
  | nil => simp [getEntry] at h
  | cons hd tl ih =>
    obtain ⟨k', w⟩ := hd
    by_cases hk : k' = k
    · subst hk; simp
    · simp only [getEntry, if_neg hk] at h
      simpa using Or.inr (ih h)

/-- A successful dict lookup returns an entry of the list. -/
theorem getEntry_mem {κ α : Type} [DecidableEq κ] {l : List (κ × α)}
    {k : κ} {v : α} (h : getEntry l k = some v) : (k, v) ∈ l := by
  induction l with
  | nil => simp [getEntry] at h
  | cons hd tl ih =>
    obtain ⟨k', w⟩ := hd
    by_cases hk : k' = k
    · subst hk
      have hw : w = v := by simpa [getEntry] using h
      rw [← hw]
      exact List.mem_cons_self _ _
    · simp only [getEntry, if_neg hk] at h
      exact List.mem_cons_of_mem _ (ih h)

/-- A key that occurs in a dict looks up successfully. -/
theorem getEntry_isSome_of_mem_keys {κ α : Type} [DecidableEq κ]
    {l : List (κ × α)} {k : κ} (h : k ∈ l.map Prod.fst) :
    ∃ v, getEntry l k = some v := by
  induction l with
  | nil => simp at h
  | cons hd tl ih =>
    obtain ⟨k', w⟩ := hd
    by_cases hk : k' = k
    · subst hk; exact ⟨w, by simp [getEntry]⟩
    · simp only [List.map_cons, List.mem_cons] at h
      rcases h with h | h
      · exact absurd h.symm hk
      · obtain ⟨v, hv⟩ := ih h
        exact ⟨v, by simp [getEntry, hk, hv]⟩

/-- `filterMap` over a cons whose head maps to `some`, with the function
explicit (avoids higher-order unification). -/
theorem filterMap_cons_of_some {α β : Type} (g : α → Option β) (a : α)
    (l : List α) (b : β) (h : g a = some b) :
    (a :: l).filterMap g = b :: l.filterMap g := by
  rw [List.filterMap_cons, h]

/-- `filterMap` over a cons whose head maps to `none`, with the function
explicit. -/
theorem filterMap_cons_of_none {α β : Type} (g : α → Option β) (a : α)
    (l : List α) (h : g a = none) :
    (a :: l).filterMap g = l.filterMap g := by
  rw [List.filterMap_cons, h]

/-- No removal-loop entry whose joined name differs everywhere from `s`
survives the `field_name = s` filter. -/
theorem removedLoop_filter_nil (w1 w2 : TimeWindow)
    (l : List (List String × SchemaFieldInfo)) (ckeys : List (List String))
    (s : String) (habs : s ∉ l.map (fun fi => pathStr fi.1)) :
    (l.filterMap (fun fi =>
        if fi.1 ∈ ckeys then none else some (removedResult w1 w2 fi.1 fi.2))).filter
      (fun r => r.field_name = some s) = [] := by
  induction l with
  | nil => simp
  | cons hd tl ih =>
    obtain ⟨f, i⟩ := hd
    simp only [List.map_cons, List.mem_cons, not_or] at habs
    obtain ⟨hne, habs'⟩ := habs
    by_cases hf : f ∈ ckeys
    · rw [filterMap_cons_of_none (fun fi =>
        if fi.1 ∈ ckeys then none
        else some (removedResult w1 w2 fi.1 fi.2)) (f, i) tl (by simp [hf])]
      exact ih habs'
    · rw [filterMap_cons_of_some (fun fi =>
        if fi.1 ∈ ckeys then none
        else some (removedResult w1 w2 fi.1 fi.2)) (f, i) tl
        (removedResult w1 w2 f i) (by simp [hf])]
      rw [List.filter_cons_of_neg (by simp [removedResult, Ne.symm hne])]
      exact ih habs'

/-- The removal loop, filtered to one joined field name occurring exactly
once among the baseline names and absent from the current names, yields
exactly the CRITICAL score-1 `field_removed` finding. -/
theorem removedLoop_filter_single (w1 w2 : TimeWindow)
    (l : List (List String × SchemaFieldInfo)) (ckeys : List (List String))
    (s : String) (hmem : s ∈ l.map (fun fi => pathStr fi.1))
    (hnd : (l.map (fun fi => pathStr fi.1)).Nodup)
    (habs : ∀ q ∈ ckeys, pathStr q ≠ s) :
    ((l.filterMap (fun fi =>
        if fi.1 ∈ ckeys then none else some (removedResult w1 w2 fi.1 fi.2))).filter
      (fun r => r.field_name = some s)).map
        (fun r => (r.metric_name, r.severity, r.drift_score)) =
    [("field_removed", Severity.critical, (1 : ℝ))] := by
  induction l with
  | nil => simp at hmem
  | cons hd tl ih =>
    obtain ⟨f, i⟩ := hd
    simp only [List.map_cons, List.nodup_cons] at hnd
    obtain ⟨hnotin, hnd'⟩ := hnd
    by_cases hfs : pathStr f = s
    · have hf : f ∉ ckeys := fun hin => habs f hin hfs
      have htl : s ∉ tl.map (fun fi => pathStr fi.1) := hfs ▸ hnotin
      rw [filterMap_cons_of_some (fun fi =>
        if fi.1 ∈ ckeys then none
        else some (removedResult w1 w2 fi.1 fi.2)) (f, i) tl
        (removedResult w1 w2 f i) (by simp [hf])]
      rw [List.filter_cons_of_pos (by simp [removedResult, hfs])]
      rw [List.map_cons]
      rw [removedLoop_filter_nil w1 w2 tl ckeys s htl]
      simp [removedResult]
    · have hmem' : s ∈ tl.map (fun fi => pathStr fi.1) := by
        simp only [List.map_cons, List.mem_cons] at hmem
        rcases hmem with h | h
        · exact absurd h.symm hfs
        · exact h
      by_cases hf : f ∈ ckeys
      · rw [filterMap_cons_of_none (fun fi =>
          if fi.1 ∈ ckeys then none
          else some (removedResult w1 w2 fi.1 fi.2)) (f, i) tl (by simp [hf])]
        exact ih hmem' hnd'
      · rw [filterMap_cons_of_some (fun fi =>
          if fi.1 ∈ ckeys then none
          else some (removedResult w1 w2 fi.1 fi.2)) (f, i) tl
          (removedResult w1 w2 f i) (by simp [hf])]
        rw [List.filter_cons_of_neg (by simp [removedResult, hfs])]
        exact ih hmem' hnd'

/-- No addition-loop finding carries the name of a field absent from the
current profile. -/
theorem addedLoop_filter_nil (w1 w2 : TimeWindow)
    (l : List (List String × SchemaFieldInfo)) (bkeys : List (List String))
    (s : String) (habs : ∀ q ∈ l.map (fun fi => pathStr fi.1), q ≠ s) :
    (l.filterMap (fun fi =>
        if fi.1 ∈ bkeys then none else some (addedResult w1 w2 fi.1 fi.2))).filter
      (fun r => r.field_name = some s) = [] := by
  induction l with
  | nil => simp
  | cons hd tl ih =>
    obtain ⟨f, i⟩ := hd
    have hne : pathStr f ≠ s :=
      habs (pathStr f) (List.mem_map_of_mem _ (List.mem_cons_self _ _))
    have habs' : ∀ q ∈ tl.map (fun fi => pathStr fi.1), q ≠ s := by
      intro q hq; exact habs q (by simp [hq])
    by_cases hf : f ∈ bkeys
    · rw [filterMap_cons_of_none (fun fi =>
        if fi.1 ∈ bkeys then none
        else some (addedResult w1 w2 fi.1 fi.2)) (f, i) tl (by simp [hf])]
      exact ih habs'
    · rw [filterMap_cons_of_some (fun fi =>
        if fi.1 ∈ bkeys then none
        else some (addedResult w1 w2 fi.1 fi.2)) (f, i) tl
        (addedResult w1 w2 f i) (by simp [hf])]
      rw [List.filter_cons_of_neg (by simp [addedResult, hne])]
      exact ih habs'

/-- No common-field (type-change / cardinality) finding carries the name
of a field absent from the current profile. -/
theorem commonLoop_filter_nil (cfg : SchemaConfig) (w1 w2 : TimeWindow)
    (l : List (List String × SchemaFieldInfo)) (cp : SchemaProfile)
    (s : String) (habs : ∀ q ∈ cp.get_field_names, pathStr q ≠ s) :
    (l.flatMap (fun fi =>
        match getEntry cp.fields fi.1 with
        | none => []
        | some ci =>
            typeChangeResults w1 w2 fi.1 fi.2 ci ++
            cardinalityResults cfg w1 w2 fi.1 fi.2 ci)).filter
      (fun r => r.field_name = some s) = [] := by
  rw [List.filter_eq_nil_iff]
  intro r hr
  rw [List.mem_flatMap] at hr
  obtain ⟨fi, _, hr⟩ := hr
  rcases hget : getEntry cp.fields fi.1 with _ | ci
  · rw [hget] at hr; simp at hr
  · rw [hget] at hr
    have hmemc : fi.1 ∈ cp.get_field_names := getEntry_mem_keys hget
    have hne : pathStr fi.1 ≠ s := habs fi.1 hmemc
    rw [List.mem_append] at hr
    rcases hr with hr | hr
    · simp only [typeChangeResults] at hr
      split at hr
      · simp only [List.mem_singleton] at hr
        subst hr; simp [hne]
      · simp at hr
    · simp only [cardinalityResults] at hr
      split at hr
      · split at hr
        · simp only [List.mem_singleton] at hr
          subst hr; simp [hne]
        · split at hr
          · simp only [List.mem_singleton] at hr
            subst hr; simp [hne]
          · simp at hr
      · simp at hr

/-- **C2**: a field path present in the baseline profile whose (joined)
name is absent from the current profile's field names produces exactly one
finding carrying that name, and it has `metric_name = "field_removed"`,
severity CRITICAL and `drift_score = 1.0`, for every threshold
configuration.  (Baseline field names are unique, as keys of a dict.) -/
theorem c2_field_removed (cfg : SchemaConfig) (bp cp : SchemaProfile)
    (w1 w2 : TimeWindow) (p : List String)
    (hmem : p ∈ bp.get_field_names)
    (habs : pathStr p ∉ cp.get_field_names.map pathStr)
    (hnd : (bp.get_field_names.map pathStr).Nodup) :
    ((SchemaDriftDetector.detect cfg bp cp w1 w2).filter
        (fun r => r.field_name = some (pathStr p))).map
      (fun r => (r.metric_name, r.severity, r.drift_score)) =
    [("field_removed", Severity.critical, (1 : ℝ))] := by
  have habs' : ∀ q ∈ cp.get_field_names, pathStr q ≠ pathStr p := by
    intro q hq he
    exact habs (he ▸ List.mem_map_of_mem pathStr hq)
  have hmem' : pathStr p ∈ bp.fields.map (fun fi => pathStr fi.1) := by
    rcases List.mem_map.1 hmem with ⟨fi, hfi, hp⟩
    exact hp ▸ List.mem_map_of_mem _ hfi
  have hnd' : (bp.fields.map (fun fi => pathStr fi.1)).Nodup := by
    rw [SchemaProfile.get_field_names, List.map_map] at hnd
    exact hnd
  simp only [SchemaDriftDetector.detect, List.filter_append, List.map_append]
  rw [addedLoop_filter_nil w1 w2 cp.fields bp.get_field_names (pathStr p)
      (by intro q hq
          rcases List.mem_map.1 hq with ⟨fi, hfi, rfl⟩
          exact habs' fi.1 (List.mem_map_of_mem Prod.fst hfi))]
  rw [removedLoop_filter_single w1 w2 bp.fields cp.get_field_names (pathStr p)
      hmem' hnd' habs']
  rw [commonLoop_filter_nil cfg w1 w2 bp.fields cp (pathStr p) habs']
  simp

/-- Witness for C2: a concrete one-field baseline against an empty current
profile. -/
theorem c2_field_removed_witness :
    ((SchemaDriftDetector.detect ⟨2, 5⟩
        ⟨[(["x"], ⟨"str", false, 0, 1, 1, 1, true⟩)], 1⟩ ⟨[], 1⟩
        ⟨0, 24⟩ ⟨24, 25⟩).filter
        (fun r => r.field_name = some (pathStr ["x"]))).map
      (fun r => (r.metric_name, r.severity, r.drift_score)) =
    [("field_removed", Severity.critical, (1 : ℝ))] :=
  c2_field_removed ⟨2, 5⟩ _ _ _ _ ["x"] (by simp [SchemaProfile.get_field_names])
    (by simp [SchemaProfile.get_field_names])
    (by simp [SchemaProfile.get_field_names])

/-! ### PSI: symmetry and non-negativity -/

/-- `firstDedup` preserves membership. -/
theorem mem_firstDedup {α : Type} [DecidableEq α] {a : α} {l : List α} :
    a ∈ firstDedup l ↔ a ∈ l := by
  induction l with
  | nil => simp [firstDedup]
  | cons x rest ih =>
    by_cases hax : a = x
    · subst hax; simp [firstDedup]
    · simp [firstDedup, hax, List.mem_filter, ih]

/-- `firstDedup` produces a duplicate-free list. -/
theorem nodup_firstDedup {α : Type} [DecidableEq α] (l : List α) :
    (firstDedup l).Nodup := by
  induction l with
  | nil => simp [firstDedup]
  | cons x rest ih =>
    refine List.nodup_cons.2 ⟨?_, ih.filter _⟩
    intro hx
    exact (by simpa using (List.mem_filter.1 hx).2)

/-- The two PSI union lists (baseline-first and current-first) are
permutations of each other. -/
theorem firstDedup_append_comm {α : Type} [DecidableEq α] (l1 l2 : List α) :
    (firstDedup (l1 ++ l2)).Perm (firstDedup (l2 ++ l1)) := by
  refine (List.perm_ext_iff_of_nodup (nodup_firstDedup _) (nodup_firstDedup _)).2 ?_
  intro a
  simp only [mem_firstDedup, List.mem_append]
  exact or_comm

/-- The clamped proportion is always positive (at least the `1e-10`
floor). -/
theorem clampedProp_pos (dist : List (String × ℝ)) (v : String) :
    0 < clampedProp dist v := by
  have heps : (0 : ℝ) < psiEps := by norm_num [psiEps]
  unfold clampedProp
  dsimp only
  split
  · exact heps
  · linarith [not_lt.1 (by assumption : ¬ (getEntry dist v).getD psiEps < psiEps)]

/-- Each PSI summand is symmetric in the two distributions: negating both
the difference and the log leaves the product unchanged. -/
theorem psiTerm_symm (b c : List (String × ℝ)) (v : String) :
    psiTerm b c v = psiTerm c b v := by
  have hx := clampedProp_pos b v
  have hy := clampedProp_pos c v
  simp only [psiTerm]
  rw [Real.log_div (ne_of_gt hy) (ne_of_gt hx),
    Real.log_div (ne_of_gt hx) (ne_of_gt hy)]
  ring

/-- Each PSI summand is non-negative: the difference of proportions and
the log of their ratio always share a sign. -/
theorem psiTerm_nonneg (b c : List (String × ℝ)) (v : String) :
    0 ≤ psiTerm b c v := by
  have hx := clampedProp_pos b v
  have hy := clampedProp_pos c v
  simp only [psiTerm]
  rw [Real.log_div (ne_of_gt hy) (ne_of_gt hx)]
  rcases le_total (clampedProp b v) (clampedProp c v) with h | h
  · nlinarith [Real.log_le_log hx h]
  · nlinarith [Real.log_le_log hy h]

/-- The PSI sum (before the final `abs`) is symmetric. -/
theorem psiSum_symm (b c : List (String × ℝ)) : psiSum b c = psiSum c b := by
  simp only [psiSum]
  have h1 : (firstDedup (b.map Prod.fst ++ c.map Prod.fst)).map (psiTerm b c) =
      (firstDedup (b.map Prod.fst ++ c.map Prod.fst)).map (psiTerm c b) :=
    List.map_congr_left (fun v _ => psiTerm_symm b c v)
  rw [h1]
  exact ((firstDedup_append_comm (b.map Prod.fst) (c.map Prod.fst)).map
    (psiTerm c b)).sum_eq

/-- The PSI sum (before the final `abs`) is non-negative. -/
theorem psiSum_nonneg (b c : List (String × ℝ)) : 0 ≤ psiSum b c := by
  refine List.sum_nonneg ?_
  intro x hx
  rcases List.mem_map.1 hx with ⟨v, _, rfl⟩
  exact psiTerm_nonneg b c v

/-- **C3**: `_calculate_psi` is symmetric under swapping which
distribution plays the baseline role and which the current role, with the
`1e-10` clamping included: each summand is invariant because both factors
negate, and the two union lists enumerate the same value set. -/
theorem c3_psi_symmetric (A B : List (String × ℝ)) :
    DistributionDriftDetector.calculate_psi A B =
    DistributionDriftDetector.calculate_psi B A := by
  unfold DistributionDriftDetector.calculate_psi
  rw [psiSum_symm]

/-- **C9**: the PSI sum is non-negative term by term, so the final `abs`
in `_calculate_psi` is redundant, and every PSI-based categorical drift
score is non-negative. -/
theorem c9_psi_nonneg :
    (∀ A B : List (String × ℝ), 0 ≤ psiSum A B) ∧
    (∀ A B : List (String × ℝ),
      DistributionDriftDetector.calculate_psi A B = psiSum A B) ∧
    (∀ (cfg : DistConfig) (bp cp : StatisticalProfile) (w1 w2 : TimeWindow)
      (r : DriftResult), r ∈ detectCategoricalDrift cfg bp cp w1 w2 →
      0 ≤ r.drift_score) := by
  have hnn := psiSum_nonneg
  refine ⟨hnn, fun A B => abs_of_nonneg (hnn A B), ?_⟩
  intro cfg bp cp w1 w2 r hr
  have hpsi : ∀ b c : List (String × ℝ),
      0 ≤ DistributionDriftDetector.calculate_psi b c :=
    fun b c => abs_nonneg _
  rcases List.mem_filterMap.1 hr with ⟨fd, _, hfd⟩
  rcases hget : getEntry cp.categorical fd.1 with _ | cd
  · rw [hget] at hfd; exact absurd hfd (by simp)
  · rw [hget] at hfd
    simp only [categoricalFinding] at hfd
    split at hfd
    · rcases Option.some.injEq .. ▸ hfd with rfl
      · exact le_min (by norm_num) (div_nonneg (hpsi fd.2 cd) (by norm_num))
    · split at hfd
      · rcases Option.some.injEq .. ▸ hfd with rfl
        · exact div_nonneg (hpsi fd.2 cd) (by norm_num)
      · exact absurd hfd (by simp)

/-- Witness for C9: with thresholds set to −1 a shared (empty)
distribution for field `"type"` produces a CRITICAL PSI finding, whose
score the theorem shows non-negative; the first two conjuncts are
instantiated at concrete distributions. -/
theorem c9_psi_nonneg_witness :
    0 ≤ psiSum [("A", (1 : ℝ))] [("A", (1 : ℝ))] ∧
    DistributionDriftDetector.calculate_psi [("A", (1 : ℝ))] [("A", (1 : ℝ))] =
      psiSum [("A", (1 : ℝ))] [("A", (1 : ℝ))] ∧
    ({ drift_type := .distribution
       entity := some "categorical"
       field_name := some "type"
       baseline_window := ⟨0, 24⟩
       current_window := ⟨24, 25⟩
       metric_name := "psi"
       drift_score := min 1 (DistributionDriftDetector.calculate_psi [] [] / 0.5)
       severity := .critical } : DriftResult) ∈
      detectCategoricalDrift ⟨-1, -1, 0, 0⟩ ⟨[("type", [])], [], [], 0⟩
        ⟨[("type", [])], [], [], 0⟩ ⟨0, 24⟩ ⟨24, 25⟩ ∧
    0 ≤ (min 1 (DistributionDriftDetector.calculate_psi [] [] / 0.5) : ℝ) := by
  have hpsi0 : DistributionDriftDetector.calculate_psi [] [] = 0 := by
    simp [DistributionDriftDetector.calculate_psi, psiSum, firstDedup]
  have hmem : (⟨.distribution, some "categorical", some "type", ⟨0, 24⟩,
      ⟨24, 25⟩, "psi",
      min 1 (DistributionDriftDetector.calculate_psi [] [] / 0.5),
      .critical⟩ : DriftResult) ∈
      detectCategoricalDrift ⟨-1, -1, 0, 0⟩ ⟨[("type", [])], [], [], 0⟩
        ⟨[("type", [])], [], [], 0⟩ ⟨0, 24⟩ ⟨24, 25⟩ := by
    simp only [detectCategoricalDrift, List.filterMap_cons, List.filterMap_nil,
      getEntry, if_pos rfl]
    norm_num [categoricalFinding, hpsi0]
  exact ⟨psiSum_nonneg _ _, c9_psi_nonneg.2.1 _ _,
    hmem, c9_psi_nonneg.2.2 ⟨-1, -1, 0, 0⟩ _ _ _ _ _ hmem⟩

/-! ### Numerical drift: the mean-shift tiers -/

/-- The per-field numerical check written as one if-chain over the mean
shift (definitional restatement of `numericalFinding`). -/
theorem numericalFinding_cases (w1 w2 : TimeWindow) (k : String)
    (bs cs : NumStats) :
    numericalFinding w1 w2 k bs cs =
    (if meanShift bs cs ≥ 3 then
      some ⟨.distribution, some "numerical", some k, w1, w2, "mean_shift",
        min 1 (meanShift bs cs / 5), .critical⟩
    else if meanShift bs cs ≥ 2 then
      some ⟨.distribution, some "numerical", some k, w1, w2, "mean_shift",
        meanShift bs cs / 5, .warning⟩
    else if meanShift bs cs ≥ 1 then
      some ⟨.distribution, some "numerical", some k, w1, w2, "mean_shift",
        meanShift bs cs / 5, .info⟩
    else none) := rfl

/-- Any finding the numerical check emits carries its field's name. -/
theorem numericalFinding_field_name {w1 w2 : TimeWindow} {k : String}
    {bs cs : NumStats} {r : DriftResult}
    (h : numericalFinding w1 w2 k bs cs = some r) : r.field_name = some k := by
  rw [numericalFinding_cases] at h
  split at h
  · rw [Option.some.injEq] at h; rw [← h]
  · split at h
    · rw [Option.some.injEq] at h; rw [← h]
    · split at h
      · rw [Option.some.injEq] at h; rw [← h]
      · exact absurd h (by simp)

/-- Entries of the numerical loop for other field names never survive the
`field_name = f` filter. -/
theorem numericalLoop_notmem (cp : StatisticalProfile) (w1 w2 : TimeWindow)
    (l : List (String × NumStats)) (f : String)
    (hout : f ∉ l.map Prod.fst) :
    ((l.filterMap (fun fd =>
        match getEntry cp.numerical fd.1 with
        | none => none
        | some cst => numericalFinding w1 w2 fd.1 fd.2 cst)).filter
      (fun r => r.field_name = some f)) = [] := by
  induction l with
  | nil => simp
  | cons hd tl ih =>
    obtain ⟨k, v⟩ := hd
    simp only [List.map_cons, List.mem_cons, not_or] at hout
    obtain ⟨hne, hout'⟩ := hout
    rcases hg : getEntry cp.numerical k with _ | cst
    · rw [filterMap_cons_of_none (fun fd =>
        match getEntry cp.numerical fd.1 with
        | none => none
        | some cst => numericalFinding w1 w2 fd.1 fd.2 cst) (k, v) tl
        (by simp [hg])]
      exact ih hout'
    · rcases hf : numericalFinding w1 w2 k v cst with _ | r
      · rw [filterMap_cons_of_none (fun fd =>
          match getEntry cp.numerical fd.1 with
          | none => none
          | some cst => numericalFinding w1 w2 fd.1 fd.2 cst) (k, v) tl
          (by simp [hg, hf])]
        exact ih hout'
      · rw [filterMap_cons_of_some (fun fd =>
          match getEntry cp.numerical fd.1 with
          | none => none
          | some cst => numericalFinding w1 w2 fd.1 fd.2 cst) (k, v) tl r
          (by simp [hg, hf])]
        rw [List.filter_cons_of_neg
          (by simp [numericalFinding_field_name hf, Ne.symm hne])]
        exact ih hout'

/-- The numerical loop over a duplicate-free entry list, filtered to one
field present in both profiles, is exactly that field's finding. -/
theorem numericalLoop_filter (cp : StatisticalProfile) (w1 w2 : TimeWindow)
    (l : List (String × NumStats)) (f : String) (bs cs : NumStats)
    (hnd : (l.map Prod.fst).Nodup)
    (hb : getEntry l f = some bs)
    (hc : getEntry cp.numerical f = some cs) :
    ((l.filterMap (fun fd =>
        match getEntry cp.numerical fd.1 with
        | none => none
        | some cst => numericalFinding w1 w2 fd.1 fd.2 cst)).filter
      (fun r => r.field_name = some f)) =
    (match numericalFinding w1 w2 f bs cs with
     | none => []
     | some r => [r]) := by
  induction l with
  | nil => simp [getEntry] at hb
  | cons hd tl ih =>
    obtain ⟨k, v⟩ := hd
    simp only [List.map_cons, List.nodup_cons] at hnd
    obtain ⟨hnotin, hnd'⟩ := hnd
    by_cases hk : k = f
    · subst hk
      have hv : v = bs := by simpa [getEntry] using hb
      subst hv
      rcases hf : numericalFinding w1 w2 k v cs with _ | r
      · rw [filterMap_cons_of_none (fun fd =>
          match getEntry cp.numerical fd.1 with
          | none => none
          | some cst => numericalFinding w1 w2 fd.1 fd.2 cst) (k, v) tl
          (by simp [hc, hf])]
        rw [numericalLoop_notmem cp w1 w2 tl k hnotin]
      · rw [filterMap_cons_of_some (fun fd =>
          match getEntry cp.numerical fd.1 with
          | none => none
          | some cst => numericalFinding w1 w2 fd.1 fd.2 cst) (k, v) tl r
          (by simp [hc, hf])]
        rw [List.filter_cons_of_pos
          (by simp [numericalFinding_field_name hf])]
        rw [numericalLoop_notmem cp w1 w2 tl k hnotin]
    · have hb' : getEntry tl f = some bs := by
        simpa [getEntry, hk] using hb
      rcases hg : getEntry cp.numerical k with _ | cst
      · rw [filterMap_cons_of_none (fun fd =>
          match getEntry cp.numerical fd.1 with
          | none => none
          | some cst => numericalFinding w1 w2 fd.1 fd.2 cst) (k, v) tl
          (by simp [hg])]
        exact ih hnd' hb'
      · rcases hf : numericalFinding w1 w2 k v cst with _ | r
        · rw [filterMap_cons_of_none (fun fd =>
            match getEntry cp.numerical fd.1 with
            | none => none
            | some cst => numericalFinding w1 w2 fd.1 fd.2 cst) (k, v) tl
            (by simp [hg, hf])]
          exact ih hnd' hb'
        · rw [filterMap_cons_of_some (fun fd =>
            match getEntry cp.numerical fd.1 with
            | none => none
            | some cst => numericalFinding w1 w2 fd.1 fd.2 cst) (k, v) tl r
            (by simp [hg, hf])]
          rw [List.filter_cons_of_neg
            (by simp [numericalFinding_field_name hf, hk])]
          exact ih hnd' hb'

/-- **C7**: for a numerical field present in both profiles, with
`mean_shift = |current_mean − baseline_mean| / baseline_std` (0 when the
baseline std is 0), the numerical check emits exactly one finding for the
field — CRITICAL when `mean_shift ≥ 3`, WARNING in `[2, 3)`, INFO in
`[1, 2)` — and none when `mean_shift < 1`; in particular a zero baseline
standard deviation yields no finding (and no error: the division is
guarded). -/
theorem c7_numerical_mean_shift (bp cp : StatisticalProfile)
    (w1 w2 : TimeWindow) (f : String) (bs cs : NumStats)
    (hnd : (bp.numerical.map Prod.fst).Nodup)
    (hb : getEntry bp.numerical f = some bs)
    (hc : getEntry cp.numerical f = some cs) :
    (((detectNumericalDrift bp cp w1 w2).filter
        (fun r => r.field_name = some f)).map
      (fun r => (r.metric_name, r.severity, r.drift_score)) =
    (if meanShift bs cs ≥ 3 then
      [("mean_shift", Severity.critical, min 1 (meanShift bs cs / 5))]
    else if meanShift bs cs ≥ 2 then
      [("mean_shift", Severity.warning, meanShift bs cs / 5)]
    else if meanShift bs cs ≥ 1 then
      [("mean_shift", Severity.info, meanShift bs cs / 5)]
    else [])) ∧
    (bs.std = 0 →
      ((detectNumericalDrift bp cp w1 w2).filter
        (fun r => r.field_name = some f)) = []) := by
  have main := numericalLoop_filter cp w1 w2 bp.numerical f bs cs hnd hb hc
  rw [show detectNumericalDrift bp cp w1 w2 = bp.numerical.filterMap (fun fd =>
      match getEntry cp.numerical fd.1 with
      | none => none
      | some cst => numericalFinding w1 w2 fd.1 fd.2 cst) from rfl]
  constructor
  · rw [main, numericalFinding_cases]
    split_ifs <;> simp
  · intro hstd
    rw [main, numericalFinding_cases]
    have hms : meanShift bs cs = 0 := by simp [meanShift, hstd]
    rw [hms]
    norm_num

/-- Witness for C7: a concrete field `"size"` present in both profiles
(baseline mean 0, std 1; current mean 4). -/
theorem c7_numerical_mean_shift_witness :
    (((detectNumericalDrift ⟨[], [("size", ⟨0, 1, 0, 0, 0, 0, 0⟩)], [], 5⟩
        ⟨[], [("size", ⟨4, 1, 4, 4, 4, 4, 4⟩)], [], 5⟩ ⟨0, 24⟩ ⟨24, 25⟩).filter
        (fun r => r.field_name = some "size")).map
      (fun r => (r.metric_name, r.severity, r.drift_score)) =
    (if meanShift ⟨0, 1, 0, 0, 0, 0, 0⟩ ⟨4, 1, 4, 4, 4, 4, 4⟩ ≥ 3 then
      [("mean_shift", Severity.critical,
        min 1 (meanShift ⟨0, 1, 0, 0, 0, 0, 0⟩ ⟨4, 1, 4, 4, 4, 4, 4⟩ / 5))]
    else if meanShift ⟨0, 1, 0, 0, 0, 0, 0⟩ ⟨4, 1, 4, 4, 4, 4, 4⟩ ≥ 2 then
      [("mean_shift", Severity.warning,
        meanShift ⟨0, 1, 0, 0, 0, 0, 0⟩ ⟨4, 1, 4, 4, 4, 4, 4⟩ / 5)]
    else if meanShift ⟨0, 1, 0, 0, 0, 0, 0⟩ ⟨4, 1, 4, 4, 4, 4, 4⟩ ≥ 1 then
      [("mean_shift", Severity.info,
        meanShift ⟨0, 1, 0, 0, 0, 0, 0⟩ ⟨4, 1, 4, 4, 4, 4, 4⟩ / 5)]
    else [])) :=
  (c7_numerical_mean_shift ⟨[], [("size", ⟨0, 1, 0, 0, 0, 0, 0⟩)], [], 5⟩
    ⟨[], [("size", ⟨4, 1, 4, 4, 4, 4, 4⟩)], [], 5⟩ ⟨0, 24⟩ ⟨24, 25⟩ "size"
    ⟨0, 1, 0, 0, 0, 0, 0⟩ ⟨4, 1, 4, 4, 4, 4, 4⟩ (by simp) rfl rfl).1

/-! ### Volume drift under a zero-duration window -/

/-- Counterexample to C5 as stated: with a zero-duration baseline window,
`VolumeDriftDetector.detect` (default thresholds) still returns a
per-entity finding — entity value `"A"` going from count 1 to count 10 —
so the detector's result list is not empty. -/
theorem c5_zero_duration_counterexample :
    (VolumeDriftDetector.detect ⟨2, 3, 0.2, 0.5⟩ ⟨1, [("type", [("A", 1)])]⟩
      ⟨10, [("type", [("A", 10)])]⟩ ⟨0, 0⟩ ⟨0, 1⟩ []).length = 1 := by
  have hg : detectGlobalVolumeDrift ⟨2, 3, 0.2, 0.5⟩ ⟨1, [("type", [("A", 1)])]⟩
      ⟨10, [("type", [("A", 10)])]⟩ ⟨0, 0⟩ ⟨0, 1⟩ [] = [] := by
    simp [detectGlobalVolumeDrift, TimeWindow.duration_hours]
  have hp : detectPerEntityVolumeDrift ⟨2, 3, 0.2, 0.5⟩ ⟨1, [("type", [("A", 1)])]⟩
      ⟨10, [("type", [("A", 10)])]⟩ ⟨0, 0⟩ ⟨0, 1⟩ =
      [⟨.volume, some "type", some "A", ⟨0, 0⟩, ⟨0, 1⟩, "entity_count_change",
        min 1 |((10 : ℝ) - 1) / 1|, .warning⟩] := by
    simp only [detectPerEntityVolumeDrift, List.flatMap_cons, List.flatMap_nil,
      getEntry, if_pos rfl, List.filterMap_cons, List.filterMap_nil]
    norm_num [perEntityFinding, entityPercentChange, getEntry]
  simp [VolumeDriftDetector.detect, hg, hp]

/-- **C5 (amended)**: when either window has zero duration, the global
volume check returns an empty list (skipping before any division by the
duration), and `detect` returns exactly the per-entity findings — which
ignore the windows' durations and may be non-empty. -/
theorem c5_zero_duration_amended (cfg : VolumeConfig) (bp cp : VolumeProfile)
    (w1 w2 : TimeWindow) (hist : List VolumeProfile)
    (h : w1.duration_hours = 0 ∨ w2.duration_hours = 0) :
    detectGlobalVolumeDrift cfg bp cp w1 w2 hist = [] ∧
    VolumeDriftDetector.detect cfg bp cp w1 w2 hist =
      detectPerEntityVolumeDrift cfg bp cp w1 w2 := by
  have hg : detectGlobalVolumeDrift cfg bp cp w1 w2 hist = [] := by
    simp only [detectGlobalVolumeDrift]
    split_ifs
    · rfl
  refine ⟨hg, ?_⟩
  simp only [VolumeDriftDetector.detect, hg, List.nil_append]

/-- Witness for C5 (amended): a concrete zero-duration baseline window
with concrete profiles. -/
theorem c5_zero_duration_amended_witness :
    detectGlobalVolumeDrift ⟨2, 3, 0.2, 0.5⟩ ⟨1, [("type", [("A", 1)])]⟩
      ⟨10, [("type", [("A", 10)])]⟩ ⟨5, 5⟩ ⟨0, 1⟩ [] = [] ∧
    VolumeDriftDetector.detect ⟨2, 3, 0.2, 0.5⟩ ⟨1, [("type", [("A", 1)])]⟩
      ⟨10, [("type", [("A", 10)])]⟩ ⟨5, 5⟩ ⟨0, 1⟩ [] =
      detectPerEntityVolumeDrift ⟨2, 3, 0.2, 0.5⟩ ⟨1, [("type", [("A", 1)])]⟩
        ⟨10, [("type", [("A", 10)])]⟩ ⟨5, 5⟩ ⟨0, 1⟩ :=
  c5_zero_duration_amended ⟨2, 3, 0.2, 0.5⟩ ⟨1, [("type", [("A", 1)])]⟩
    ⟨10, [("type", [("A", 10)])]⟩ ⟨5, 5⟩ ⟨0, 1⟩ []
    (Or.inl (by norm_num [TimeWindow.duration_hours]))

/-! ### Runner short-circuit on insufficient sample -/

/-- **C6**: when either fetched window holds fewer records than
`min_sample_size`, `DriftRunner.run` returns the empty summary for the
computed windows — `total_checks = 0`, `total_drifts = 0`, no results and
all severity/type counts zero (so no profile content or detector finding
reaches the summary, and the run is a no-op rather than an error). -/
theorem c6_min_sample_short_circuit (cfg : RunnerConfig) (t : ℝ)
    (bdata cdata : List Record)
    (h : bdata.length < cfg.min_sample_size ∨
         cdata.length < cfg.min_sample_size) :
    DriftRunner.run cfg t bdata cdata =
      emptySummary t (defineWindows cfg t).1 (defineWindows cfg t).2 ∧
    (DriftRunner.run cfg t bdata cdata).total_checks = 0 ∧
    (DriftRunner.run cfg t bdata cdata).total_drifts = 0 ∧
    (DriftRunner.run cfg t bdata cdata).results = [] ∧
    (DriftRunner.run cfg t bdata cdata).critical_count = 0 ∧
    (DriftRunner.run cfg t bdata cdata).warning_count = 0 ∧
    (DriftRunner.run cfg t bdata cdata).info_count = 0 ∧
    (DriftRunner.run cfg t bdata cdata).drifts_by_type = [] := by
  have hrun : DriftRunner.run cfg t bdata cdata =
      emptySummary t (defineWindows cfg t).1 (defineWindows cfg t).2 := by
    simp only [DriftRunner.run]
    rcases h with h | h
    · rw [if_pos h]
    · by_cases hb : bdata.length < cfg.min_sample_size
      · rw [if_pos hb]
      · rw [if_neg hb, if_pos h]
  refine ⟨hrun, ?_, ?_, ?_, ?_, ?_, ?_, ?_⟩ <;> rw [hrun] <;> rfl

/-- Witness for C6: an empty fetch against `min_sample_size = 100`. -/
theorem c6_min_sample_short_circuit_witness :
    DriftRunner.run ⟨7, 1, 0, 100, true, true, true, ⟨2, 5⟩,
        ⟨0.1, 0.25, 0.1, 0.25⟩, ⟨2, 3, 0.2, 0.5⟩, ["type"], ["size"],
        1000, 100, 50⟩ 0 [] [[("type", .vStr "A")]] =
      emptySummary 0
        (defineWindows ⟨7, 1, 0, 100, true, true, true, ⟨2, 5⟩,
          ⟨0.1, 0.25, 0.1, 0.25⟩, ⟨2, 3, 0.2, 0.5⟩, ["type"], ["size"],
          1000, 100, 50⟩ 0).1
        (defineWindows ⟨7, 1, 0, 100, true, true, true, ⟨2, 5⟩,
          ⟨0.1, 0.25, 0.1, 0.25⟩, ⟨2, 3, 0.2, 0.5⟩, ["type"], ["size"],
          1000, 100, 50⟩ 0).2 :=
  (c6_min_sample_short_circuit _ 0 [] [[("type", .vStr "A")]]
    (Or.inl (by decide))).1

/-! ### Drift scores stay in the unit interval -/

/-- Cardinality-explosion scores lie in `[0, 1]` whenever the critical
ratio threshold is at most 10 (as the default 5.0 is): the CRITICAL tier
is clamped and the WARNING tier satisfies `ratio < critical ≤ 10`. -/
theorem cardinalityResults_score_bounds {cfg : SchemaConfig}
    (h10 : cfg.cardinality_critical_ratio ≤ 10) {w1 w2 : TimeWindow}
    {f : List String} {bi ci : SchemaFieldInfo} {r : DriftResult}
    (hr : r ∈ cardinalityResults cfg w1 w2 f bi ci) :
    0 ≤ r.drift_score ∧ r.drift_score ≤ 1 := by
  have hratio : (0 : ℝ) ≤ (ci.cardinality : ℝ) / (bi.cardinality : ℝ) :=
    div_nonneg (Nat.cast_nonneg _) (Nat.cast_nonneg _)
  simp only [cardinalityResults] at hr
  split at hr
  · split at hr
    · rw [List.mem_singleton] at hr
      subst hr
      dsimp only
      constructor
      · exact le_min (by norm_num) (by linarith)
      · exact min_le_left _ _
    · split at hr
      · rw [List.mem_singleton] at hr
        subst hr
        dsimp only
        have hlt : (ci.cardinality : ℝ) / (bi.cardinality : ℝ) <
            cfg.cardinality_critical_ratio := by
          linarith [not_le.1 (by assumption :
            ¬ (ci.cardinality : ℝ) / (bi.cardinality : ℝ) ≥
              cfg.cardinality_critical_ratio)]
        constructor
        · linarith
        · linarith
      · simp at hr
  · simp at hr

/-- Every schema-drift score lies in `[0, 1]` under the threshold bound of
`cardinalityResults_score_bounds`: additions score 0.5/0.8, removals and
type changes score 1.0. -/
theorem schema_score_bounds {cfg : SchemaConfig}
    (h10 : cfg.cardinality_critical_ratio ≤ 10)
    {bp cp : SchemaProfile} {w1 w2 : TimeWindow} {r : DriftResult}
    (hr : r ∈ SchemaDriftDetector.detect cfg bp cp w1 w2) :
    0 ≤ r.drift_score ∧ r.drift_score ≤ 1 := by
  simp only [SchemaDriftDetector.detect, List.mem_append] at hr
  rcases hr with (hr | hr) | hr
  · rcases List.mem_filterMap.1 hr with ⟨fi, _, hfi⟩
    split at hfi
    · exact absurd hfi (by simp)
    · injection hfi with h'
      subst h'
      simp only [addedResult]
      split_ifs <;> norm_num
  · rcases List.mem_filterMap.1 hr with ⟨fi, _, hfi⟩
    split at hfi
    · exact absurd hfi (by simp)
    · injection hfi with h'
      subst h'
      simp only [removedResult]
      norm_num
  · rcases List.mem_flatMap.1 hr with ⟨fi, _, hfi⟩
    rcases hget : getEntry cp.fields fi.1 with _ | ci
    · rw [hget] at hfi
      simp at hfi
    · rw [hget] at hfi
      rcases List.mem_append.1 hfi with hfi | hfi
      · simp only [typeChangeResults] at hfi
        split at hfi
        · rw [List.mem_singleton] at hfi
          subst hfi
          dsimp only
          norm_num
        · simp at hfi
      · exact cardinalityResults_score_bounds h10 hfi

/-- Every distribution-drift score lies in `[0, 1]` when the PSI warning
threshold and the null-ratio critical threshold are at most 0.5 (as the
defaults 0.25 are); the mean-shift tiers are hard-coded. -/
theorem distribution_score_bounds {cfg : DistConfig}
    (hpsi : cfg.psi_warning_threshold ≤ 0.5)
    (hnull : cfg.null_critical_threshold ≤ 0.5)
    {bp cp : StatisticalProfile} {w1 w2 : TimeWindow} {r : DriftResult}
    (hr : r ∈ DistributionDriftDetector.detect cfg bp cp w1 w2) :
    0 ≤ r.drift_score ∧ r.drift_score ≤ 1 := by
  simp only [DistributionDriftDetector.detect, List.mem_append] at hr
  rcases hr with (hr | hr) | hr
  · rcases List.mem_filterMap.1 hr with ⟨fd, _, hfd⟩
    rcases hget : getEntry cp.categorical fd.1 with _ | cd
    · rw [hget] at hfd; exact absurd hfd (by simp)
    · rw [hget] at hfd
      have hnn : 0 ≤ DistributionDriftDetector.calculate_psi fd.2 cd :=
        abs_nonneg _
      simp only [categoricalFinding] at hfd
      split at hfd
      · injection hfd with h'
        subst h'
        dsimp only
        exact ⟨le_min (by norm_num) (by positivity), min_le_left _ _⟩
      · split at hfd
        · injection hfd with h'
          subst h'
          dsimp only
          have hlt : DistributionDriftDetector.calculate_psi fd.2 cd <
              cfg.psi_warning_threshold :=
            not_le.1 (by assumption)
          constructor
          · positivity
          · rw [div_le_one (by norm_num)]
            linarith
        · exact absurd hfd (by simp)
  · rcases List.mem_filterMap.1 hr with ⟨fd, _, hfd⟩
    rcases hget : getEntry cp.numerical fd.1 with _ | cst
    · rw [hget] at hfd; exact absurd hfd (by simp)
    · rw [hget] at hfd
      have hms : 0 ≤ meanShift fd.2 cst := by
        simp only [meanShift]
        split
        · exact div_nonneg (abs_nonneg _) (le_of_lt (by assumption))
        · exact le_refl 0
      have hfd2 : numericalFinding w1 w2 fd.1 fd.2 cst = some r := hfd
      rw [numericalFinding_cases] at hfd2
      split at hfd2
      · injection hfd2 with h'
        subst h'
        dsimp only
        exact ⟨le_min (by norm_num) (by positivity), min_le_left _ _⟩
      · split at hfd2
        · injection hfd2 with h'
          subst h'
          dsimp only
          have hlt : meanShift fd.2 cst < 3 := not_le.1 (by assumption)
          constructor
          · positivity
          · rw [div_le_one (by norm_num)]
            linarith
        · split at hfd2
          · injection hfd2 with h'
            subst h'
            dsimp only
            have hlt : meanShift fd.2 cst < 2 := not_le.1 (by assumption)
            constructor
            · positivity
            · rw [div_le_one (by norm_num)]
              linarith
          · exact absurd hfd2 (by simp)
  · rcases List.mem_filterMap.1 hr with ⟨fd, _, hfd⟩
    rcases hget : getEntry cp.null_ratios fd.1 with _ | cnr
    · rw [hget] at hfd; exact absurd hfd (by simp)
    · rw [hget] at hfd
      have habs : (0 : ℝ) ≤ |cnr - fd.2| := abs_nonneg _
      simp only [nullRatioFinding] at hfd
      split at hfd
      · injection hfd with h'
        subst h'
        dsimp only
        exact ⟨le_min (by norm_num) (by positivity), min_le_left _ _⟩
      · split at hfd
        · injection hfd with h'
          subst h'
          dsimp only
          have hlt : |cnr - fd.2| < cfg.null_critical_threshold :=
            not_le.1 (by assumption)
          constructor
          · positivity
          · rw [div_le_one (by norm_num)]
            linarith
        · exact absurd hfd (by simp)

/-- Every volume-drift score lies in `[0, 1]` when the z-score warning
threshold is at most 5 and the percent warning threshold at most 1 (as the
defaults 3.0 and 0.50 are). -/
theorem volume_score_bounds {cfg : VolumeConfig}
    (hz : cfg.z_score_warning_threshold ≤ 5)
    (hpct : cfg.percent_warning_threshold ≤ 1)
    {bp cp : VolumeProfile} {w1 w2 : TimeWindow}
    {hist : List VolumeProfile} {r : DriftResult}
    (hr : r ∈ VolumeDriftDetector.detect cfg bp cp w1 w2 hist) :
    0 ≤ r.drift_score ∧ r.drift_score ≤ 1 := by
  simp only [VolumeDriftDetector.detect, List.mem_append] at hr
  rcases hr with hr | hr
  · simp only [detectGlobalVolumeDrift] at hr
    split at hr
    · simp at hr
    · split at hr
      · rw [List.mem_singleton] at hr
        subst hr
        dsimp only
        exact ⟨le_min (by norm_num) (by positivity), min_le_left _ _⟩
      · split at hr
        · rw [List.mem_singleton] at hr
          subst hr
          dsimp only
          rename_i hnotcrit _
          rw [not_or] at hnotcrit
          have hzlt := not_le.1 hnotcrit.1
          constructor
          · positivity
          · rw [div_le_one (by norm_num)]
            linarith
        · simp at hr
  · rcases List.mem_flatMap.1 hr with ⟨ed, _, hed⟩
    rcases hget : getEntry cp.per_entity ed.1 with _ | cents
    · rw [hget] at hed; simp at hed
    · rw [hget] at hed
      rcases List.mem_filterMap.1 hed with ⟨ev, _, hev⟩
      rcases hget2 : getEntry cents ev.1 with _ | cc
      · rw [hget2] at hev; exact absurd hev (by simp)
      · rw [hget2] at hev
        simp only [perEntityFinding] at hev
        split at hev
        · injection hev with h'
          subst h'
          dsimp only
          exact ⟨le_min (by norm_num) (abs_nonneg _), min_le_left _ _⟩
        · split at hev
          · injection hev with h'
            subst h'
            dsimp only
            have hlt : |entityPercentChange ev.2 cc| <
                cfg.percent_warning_threshold := not_le.1 (by assumption)
            exact ⟨abs_nonneg _, by linarith⟩
          · exact absurd hev (by simp)

/-- **C4**: every finding emitted by the schema, distribution and volume
detectors has `drift_score ∈ [0, 1]`, for every pair of input profiles,
provided the configured thresholds satisfy the bounds the shipped defaults
satisfy (`cardinality_critical ≤ 10`, `psi_warning ≤ 0.5`,
`null_critical ≤ 0.5`, `z_score_warning ≤ 5`, `percent_warning ≤ 1`);
in particular the unclamped WARNING/INFO-tier scores never exceed 1
because each tier's guard bounds its numerator. -/
theorem c4_scores_unit_interval (scfg : SchemaConfig) (dcfg : DistConfig)
    (vcfg : VolumeConfig)
    (hcard : scfg.cardinality_critical_ratio ≤ 10)
    (hpsi : dcfg.psi_warning_threshold ≤ 0.5)
    (hnull : dcfg.null_critical_threshold ≤ 0.5)
    (hz : vcfg.z_score_warning_threshold ≤ 5)
    (hpct : vcfg.percent_warning_threshold ≤ 1)
    (bsp csp : SchemaProfile) (bst cst : StatisticalProfile)
    (bvp cvp : VolumeProfile) (w1 w2 : TimeWindow)
    (hist : List VolumeProfile) (r : DriftResult)
    (hr : r ∈ SchemaDriftDetector.detect scfg bsp csp w1 w2 ++
          DistributionDriftDetector.detect dcfg bst cst w1 w2 ++
          VolumeDriftDetector.detect vcfg bvp cvp w1 w2 hist) :
    0 ≤ r.drift_score ∧ r.drift_score ≤ 1 := by
  rcases List.mem_append.1 hr with hr' | hr'
  · rcases List.mem_append.1 hr' with h | h
    · exact schema_score_bounds hcard h
    · exact distribution_score_bounds hpsi hnull h
  · exact volume_score_bounds hz hpct hr'

/-- Witness for C4: the default thresholds satisfy the bounds, and the
removal finding of the C2 scenario has its score inside `[0, 1]`. -/
theorem c4_scores_unit_interval_witness :
    0 ≤ (removedResult ⟨0, 24⟩ ⟨24, 25⟩ ["x"] ⟨"str", false, 0, 1, 1, 1, true⟩).drift_score ∧
    (removedResult ⟨0, 24⟩ ⟨24, 25⟩ ["x"] ⟨"str", false, 0, 1, 1, 1, true⟩).drift_score ≤ 1 :=
  c4_scores_unit_interval ⟨2, 5⟩ ⟨0.1, 0.25, 0.1, 0.25⟩ ⟨2, 3, 0.2, 0.5⟩
    (by norm_num) (by norm_num) (by norm_num) (by norm_num) (by norm_num)
    ⟨[(["x"], ⟨"str", false, 0, 1, 1, 1, true⟩)], 1⟩ ⟨[], 1⟩
    ⟨[], [], [], 1⟩ ⟨[], [], [], 1⟩ ⟨1, []⟩ ⟨1, []⟩ ⟨0, 24⟩ ⟨24, 25⟩ [] _
    (by
      apply List.mem_append.2
      refine Or.inl (List.mem_append.2 (Or.inl ?_))
      simp only [SchemaDriftDetector.detect]
      refine List.mem_append.2 (Or.inl (List.mem_append.2 (Or.inr ?_)))
      apply List.mem_filterMap.2
      exact ⟨(["x"], ⟨"str", false, 0, 1, 1, 1, true⟩), by simp,
        by simp [SchemaProfile.get_field_names]⟩)

/-! ### Flattening of empty objects and its schema consequences -/

/-- Decompose membership in a flattened object: every produced path comes
from one of the object's entries. -/
theorem mem_keys_flattenPairs {pfx : List String}
    {pairs : List (String × Value)} {p : List String}
    (hp : p ∈ (flattenPairs pfx pairs).map Prod.fst) :
    ∃ e ∈ pairs, p ∈ (flattenVal (pfx ++ [e.1]) e.2).map Prod.fst := by
  induction pairs with
  | nil => simp [flattenPairs] at hp
  | cons hd tl ih =>
    obtain ⟨k, v⟩ := hd
    rw [show flattenPairs pfx ((k, v) :: tl) =
      flattenVal (pfx ++ [k]) v ++ flattenPairs pfx tl from rfl] at hp
    rw [List.map_append, List.mem_append] at hp
    rcases hp with hp | hp
    · exact ⟨(k, v), List.mem_cons_self _ _, hp⟩
    · obtain ⟨e, he, hpe⟩ := ih hp
      exact ⟨e, List.mem_cons_of_mem _ he, hpe⟩

/-- Every path produced by flattening a value under `key` has `key` as a
prefix (proved by strong induction on the value's size, to recurse through
nested objects). -/
theorem flattenVal_key_isPrefixOf :
    ∀ (n : ℕ) (v : Value) (key p : List String), sizeOf v ≤ n →
      p ∈ (flattenVal key v).map Prod.fst → key <+: p := by
  intro n
  induction n with
  | zero =>
    intro v key p hsz hp
    have hpos : 0 < sizeOf v := by cases v <;> simp_arith
    omega
  | succ n ih =>
    intro v key p hsz hp
    cases v with
    | vObj pairs =>
      have hp' : p ∈ (flattenPairs key pairs).map Prod.fst := hp
      obtain ⟨e, he, hpe⟩ := mem_keys_flattenPairs hp'
      have h1 : sizeOf e < sizeOf pairs := List.sizeOf_lt_of_mem he
      have h3 : sizeOf e.2 < sizeOf e := by
        obtain ⟨a, b⟩ := e
        simp
      have hsize : sizeOf e.2 ≤ n := by
        have h2 : sizeOf (Value.vObj pairs) = 1 + sizeOf pairs := by simp
        omega
      exact (List.prefix_append key [e.1]).trans (ih e.2 (key ++ [e.1]) p hsize hpe)
    | vArr elems =>
      have : p = key := by simpa [flattenVal] using hp
      exact this ▸ List.prefix_refl p
    | vNull =>
      have : p = key := by simpa [flattenVal] using hp
      exact this ▸ List.prefix_refl p
    | vBool b =>
      have : p = key := by simpa [flattenVal] using hp
      exact this ▸ List.prefix_refl p
    | vInt m =>
      have : p = key := by simpa [flattenVal] using hp
      exact this ▸ List.prefix_refl p
    | vFloat q =>
      have : p = key := by simpa [flattenVal] using hp
      exact this ▸ List.prefix_refl p
    | vStr s =>
      have : p = key := by simpa [flattenVal] using hp
      exact this ▸ List.prefix_refl p

/-- In a dict with duplicate-free keys, a member entry agrees with the
lookup of its key. -/
theorem mem_eq_of_getEntry_nodup {κ α : Type} [DecidableEq κ]
    {l : List (κ × α)} {k : κ} {v w : α}
    (hnd : (l.map Prod.fst).Nodup) (hm : (k, v) ∈ l)
    (hg : getEntry l k = some w) : v = w := by
  induction l with
  | nil => simp at hm
  | cons hd tl ih =>
    obtain ⟨k', u⟩ := hd
    simp only [List.map_cons, List.nodup_cons] at hnd
    obtain ⟨hnotin, hnd'⟩ := hnd
    rcases List.mem_cons.1 hm with hm | hm
    · injection hm with h1 h2
      subst h1
      subst h2
      simpa [getEntry] using hg
    · by_cases hk : k' = k
      · subst hk
        exact absurd (List.mem_map_of_mem Prod.fst hm) hnotin
      · rw [show getEntry ((k', u) :: tl) k = getEntry tl k by
          simp [getEntry, hk]] at hg
        exact ih hnd' hm hg

/-- The field names of a built schema profile are exactly the first-seen
flattened paths of the batch. -/
theorem from_records_field_names (recs : List Record) (m : ℕ) :
    (SchemaProfile.from_records recs m).get_field_names =
    if recs.isEmpty then [] else schemaPaths recs := by
  simp only [SchemaProfile.from_records, SchemaProfile.get_field_names]
  split
  · rfl
  · rw [List.map_map]
    rw [show (Prod.fst ∘ fun p => (p, schemaFieldInfoOf recs m p)) = id from rfl,
      List.map_id]

/-- **C10**: a key holding an empty object contributes no flattened path
(`flatten {"a": {}} = {}`); hence a field that is an empty object in every
record of a batch is entirely absent from that batch's schema profile —
neither the field itself nor any `field.*` sub-path occurs — and the
schema drift detector consequently reports every baseline sub-field under
that key as removed, even though the key itself is present in every
current record. -/
theorem c10_empty_object_flattening (recs : List Record) (k : String) (m : ℕ)
    (hk : ∀ r ∈ recs, (r.map Prod.fst).Nodup ∧
      getEntry r k = some (.vObj [])) :
    (∀ k' : String, flattenPairs [] [(k', Value.vObj [])] = []) ∧
    (∀ p ∈ (SchemaProfile.from_records recs m).get_field_names,
      ¬ [k] <+: p) ∧
    (∀ (cfg : SchemaConfig) (bp : SchemaProfile) (w1 w2 : TimeWindow)
      (q : List String) (i : SchemaFieldInfo),
      (q, i) ∈ bp.fields → [k] <+: q →
      removedResult w1 w2 q i ∈
        SchemaDriftDetector.detect cfg bp (SchemaProfile.from_records recs m)
          w1 w2) := by
  have habs : ∀ p ∈ (SchemaProfile.from_records recs m).get_field_names,
      ¬ [k] <+: p := by
    rw [from_records_field_names]
    split
    · simp
    · intro p hp hpre
      simp only [schemaPaths, mem_firstDedup] at hp
      obtain ⟨r, hr, hpr⟩ := List.mem_flatMap.1 hp
      obtain ⟨e, he, hpe⟩ := mem_keys_flattenPairs hpr
      have hpre' : [e.1] <+: p :=
        flattenVal_key_isPrefixOf (sizeOf e.2) e.2 ([] ++ [e.1]) p le_rfl hpe
      obtain ⟨t1, ht1⟩ := hpre
      obtain ⟨t2, ht2⟩ := hpre'
      have hek : e.1 = k := by
        have : k :: t1 = e.1 :: t2 := by
          rw [show k :: t1 = [k] ++ t1 from rfl, ht1,
            show e.1 :: t2 = [e.1] ++ t2 from rfl, ht2]
        exact (List.cons.injEq .. ▸ this).1.symm
      obtain ⟨hnd, hget⟩ := hk r hr
      have he2 : e.2 = Value.vObj [] := by
        have hmem : (k, e.2) ∈ r := by
          rw [← hek]
          exact he
        exact mem_eq_of_getEntry_nodup hnd hmem hget
      rw [hek, he2] at hpe
      have : flattenVal ([] ++ [k]) (Value.vObj []) = [] := rfl
      rw [this] at hpe
      simp at hpe
  refine ⟨fun k' => rfl, habs, ?_⟩
  intro cfg bp w1 w2 q i hqi hpre
  have hqabs : q ∉ (SchemaProfile.from_records recs m).get_field_names :=
    fun hq => habs q hq hpre
  simp only [SchemaDriftDetector.detect, List.mem_append]
  refine Or.inl (Or.inr ?_)
  exact List.mem_filterMap.2 ⟨(q, i), hqi, by simp [hqabs]⟩

/-- Witness for C10: one record where `"a"` is an empty object and `"b"`
an int; the baseline has the sub-field `a.b`, which the detector reports
as removed. -/
theorem c10_empty_object_flattening_witness :
    (∀ p ∈ (SchemaProfile.from_records
        [[("a", Value.vObj []), ("b", Value.vInt 1)]] 1000).get_field_names,
      ¬ ["a"] <+: p) ∧
    removedResult ⟨0, 24⟩ ⟨24, 25⟩ ["a", "b"] ⟨"int", false, 0, 1, 1, 1, true⟩ ∈
      SchemaDriftDetector.detect ⟨2, 5⟩
        ⟨[(["a", "b"], ⟨"int", false, 0, 1, 1, 1, true⟩)], 1⟩
        (SchemaProfile.from_records
          [[("a", Value.vObj []), ("b", Value.vInt 1)]] 1000) ⟨0, 24⟩ ⟨24, 25⟩ := by
  have h := c10_empty_object_flattening
    [[("a", Value.vObj []), ("b", Value.vInt 1)]] "a" 1000
    (by
      intro r hr
      rw [List.mem_singleton] at hr
      subst hr
      exact ⟨by decide, rfl⟩)
  exact ⟨h.2.1, h.2.2 ⟨2, 5⟩ ⟨[(["a", "b"], ⟨"int", false, 0, 1, 1, 1, true⟩)], 1⟩
    ⟨0, 24⟩ ⟨24, 25⟩ ["a", "b"] ⟨"int", false, 0, 1, 1, 1, true⟩
    (List.mem_singleton.2 rfl) ⟨["b"], rfl⟩⟩

/-! ### The categorical pass of the statistical profiler -/

/-- `d[k] = v` makes `k` look up to `v`. -/
theorem getEntry_setEntry_self {κ α : Type} [DecidableEq κ]
    (l : List (κ × α)) (k : κ) (v : α) :
    getEntry (setEntry l k v) k = some v := by
  induction l with
  | nil => simp [setEntry, getEntry]
  | cons hd tl ih =>
    obtain ⟨k', w⟩ := hd
    by_cases hk : k' = k
    · subst hk
      simp [setEntry, getEntry]
    · simp [setEntry, getEntry, hk, ih]

/-- `d[k] = v` leaves every other key's lookup unchanged. -/
theorem getEntry_setEntry_ne {κ α : Type} [DecidableEq κ]
    (l : List (κ × α)) (k k' : κ) (v : α) (hne : k ≠ k') :
    getEntry (setEntry l k v) k' = getEntry l k' := by
  induction l with
  | nil => simp [setEntry, getEntry, hne]
  | cons hd tl ih =>
    obtain ⟨k0, w⟩ := hd
    by_cases hk : k0 = k
    · subst hk
      simp [setEntry, getEntry, hne]
    · by_cases hk' : k0 = k'
      · subst hk'
        simp [setEntry, getEntry, hk]
      · simp [setEntry, getEntry, hk, hk', ih]

/-- A categorical-pass step for another field touches neither component's
entry for `f`. -/
theorem categoricalStep_preserves (recs : List Record) (row max : ℕ)
    (st : List (String × List (String × ℝ)) × List (String × ℝ))
    (g f : String) (hne : g ≠ f) :
    getEntry (categoricalStep recs row max st g).1 f = getEntry st.1 f ∧
    getEntry (categoricalStep recs row max st g).2 f = getEntry st.2 f := by
  simp only [categoricalStep]
  constructor
  · split
    · rfl
    · split
      · exact getEntry_setEntry_ne _ _ _ _ hne
      · rfl
  · exact getEntry_setEntry_ne _ _ _ _ hne

/-- Folding categorical-pass steps over fields not containing `f`
preserves both of `f`'s entries. -/
theorem foldl_categoricalStep_preserves (recs : List Record) (row max : ℕ)
    (gs : List String) (f : String) (hout : f ∉ gs) :
    ∀ st, getEntry (gs.foldl (categoricalStep recs row max) st).1 f =
        getEntry st.1 f ∧
      getEntry (gs.foldl (categoricalStep recs row max) st).2 f =
        getEntry st.2 f := by
  induction gs with
  | nil => intro st; exact ⟨rfl, rfl⟩
  | cons g gs ih =>
    intro st
    simp only [List.mem_cons, not_or] at hout
    have hpres := categoricalStep_preserves recs row max st g f
      (fun h => hout.1 h.symm)
    have hfold := ih hout.2 (categoricalStep recs row max st g)
    exact ⟨hfold.1.trans hpres.1, hfold.2.trans hpres.2⟩

/-- The categorical-pass step for `f` itself: the null-ratio entry is
always written; the distribution entry is written exactly when there are
non-null values and their distinct count is within `max_categories`. -/
theorem categoricalStep_self (recs : List Record) (row max : ℕ)
    (st : List (String × List (String × ℝ)) × List (String × ℝ))
    (f : String) :
    getEntry (categoricalStep recs row max st f).1 f =
      (if (recs.filterMap (fun r => (extractField r f).map valueToStr)).isEmpty
       then getEntry st.1 f
       else if (tally (recs.filterMap
            (fun r => (extractField r f).map valueToStr))).length ≤ max then
         some ((mostCommon (tally (recs.filterMap
              (fun r => (extractField r f).map valueToStr)))).map
            (fun p => (p.1, (p.2 : ℝ) /
              ((recs.filterMap (fun r => (extractField r f).map valueToStr)).length : ℝ))))
       else getEntry st.1 f) ∧
    getEntry (categoricalStep recs row max st f).2 f =
      some (if row > 0 then
        (((recs.filter (fun r => (extractField r f).isNone)).length : ℝ) / (row : ℝ))
      else 0) := by
  simp only [categoricalStep]
  constructor
  · split
    · rfl
    · split
      · exact getEntry_setEntry_self _ _ _
      · rfl
  · exact getEntry_setEntry_self _ _ _

/-- Folding the categorical pass over duplicate-free fields containing
`f`: `f`'s entries are decided by `f`'s own step. -/
theorem foldl_categoricalStep_getEntry (recs : List Record) (row max : ℕ)
    (fields : List String) (f : String) (hnd : fields.Nodup)
    (hf : f ∈ fields) :
    ∀ st, getEntry (fields.foldl (categoricalStep recs row max) st).1 f =
      (if (recs.filterMap (fun r => (extractField r f).map valueToStr)).isEmpty
       then getEntry st.1 f
       else if (tally (recs.filterMap
            (fun r => (extractField r f).map valueToStr))).length ≤ max then
         some ((mostCommon (tally (recs.filterMap
              (fun r => (extractField r f).map valueToStr)))).map
            (fun p => (p.1, (p.2 : ℝ) /
              ((recs.filterMap (fun r => (extractField r f).map valueToStr)).length : ℝ))))
       else getEntry st.1 f) ∧
      getEntry (fields.foldl (categoricalStep recs row max) st).2 f =
      some (if row > 0 then
        (((recs.filter (fun r => (extractField r f).isNone)).length : ℝ) / (row : ℝ))
      else 0) := by
  induction fields with
  | nil => simp at hf
  | cons g gs ih =>
    intro st
    rw [List.nodup_cons] at hnd
    by_cases hg : g = f
    · subst hg
      have hout : g ∉ gs := hnd.1
      have hpres := foldl_categoricalStep_preserves recs row max gs g hout
        (categoricalStep recs row max st g)
      have hself := categoricalStep_self recs row max st g
      exact ⟨hpres.1.trans hself.1, hpres.2.trans hself.2⟩
    · have hf' : f ∈ gs := by
        rcases List.mem_cons.1 hf with h | h
        · exact absurd h.symm hg
        · exact h
      have hih := ih hnd.2 hf' (categoricalStep recs row max st g)
      have hpres := categoricalStep_preserves recs row max st g f hg
      exact ⟨hih.1.trans (by rw [hpres.1]), hih.2⟩

/-- A numerical-pass step for another field leaves `f`'s null-ratio entry
unchanged. -/
theorem numericalStep_preserves (recs : List Record) (row : ℕ)
    (st : List (String × NumStats) × List (String × ℝ)) (g f : String)
    (hne : g ≠ f) :
    getEntry (numericalStep recs row st g).2 f = getEntry st.2 f := by
  simp only [numericalStep]
  exact getEntry_setEntry_ne _ _ _ _ hne

/-- Folding the numerical pass over fields not containing `f` preserves
`f`'s null-ratio entry. -/
theorem foldl_numericalStep_preserves (recs : List Record) (row : ℕ)
    (gs : List String) (f : String) (hout : f ∉ gs) :
    ∀ st, getEntry (gs.foldl (numericalStep recs row) st).2 f =
      getEntry st.2 f := by
  induction gs with
  | nil => intro st; rfl
  | cons g gs ih =>
    intro st
    simp only [List.mem_cons, not_or] at hout
    exact (ih hout.2 _).trans
      (numericalStep_preserves recs row st g f (fun h => hout.1 h.symm))

/-- Dividing each mapped value by a constant divides the sum. -/
theorem sum_map_div_aux {α : Type} (l : List α) (g : α → ℝ) (c : ℝ) :
    (l.map (fun x => g x / c)).sum = (l.map g).sum / c := by
  induction l with
  | nil => simp
  | cons x xs ih => simp [ih, add_div]

/-- Keep-first and keep-last deduplication agree up to permutation. -/
theorem firstDedup_perm_dedup {α : Type} [DecidableEq α] (l : List α) :
    (firstDedup l).Perm l.dedup :=
  (List.perm_ext_iff_of_nodup (nodup_firstDedup l) l.nodup_dedup).2
    (fun a => by rw [mem_firstDedup, List.mem_dedup])

/-- **C8**: for a non-empty batch and a configured categorical field `f`
(not also numerical) with at least one non-null extracted value: if the
distinct-value count is within `max_categories`, the stored distribution
maps every observed value to `count / total` over the non-null
observations and its proportions sum to 1; if the distinct count exceeds
`max_categories` the field is absent from `categorical`; the `null_ratios`
entry for `f` is written either way, as `null_count / row_count`. -/
theorem c8_categorical_profile (recs : List Record)
    (categorical_fields numerical_fields : List String) (max_categories : ℕ)
    (f : String) (hne : recs ≠ []) (hcf : f ∈ categorical_fields)
    (hcnd : categorical_fields.Nodup) (hnf : f ∉ numerical_fields) :
    ((recs.filterMap (fun r => (extractField r f).map valueToStr)) ≠ [] →
      ((tally (recs.filterMap (fun r =>
          (extractField r f).map valueToStr))).length ≤ max_categories →
        ∃ dist,
          getEntry (StatisticalProfile.from_records recs categorical_fields
            numerical_fields max_categories).categorical f = some dist ∧
          (∀ v ∈ recs.filterMap (fun r => (extractField r f).map valueToStr),
            (v, (((recs.filterMap (fun r =>
                (extractField r f).map valueToStr)).count v : ℝ) /
              ((recs.filterMap (fun r =>
                (extractField r f).map valueToStr)).length : ℝ))) ∈ dist) ∧
          (dist.map Prod.fst).Nodup ∧
          (dist.map Prod.snd).sum = 1) ∧
      (max_categories < (tally (recs.filterMap (fun r =>
          (extractField r f).map valueToStr))).length →
        getEntry (StatisticalProfile.from_records recs categorical_fields
          numerical_fields max_categories).categorical f = none)) ∧
    getEntry (StatisticalProfile.from_records recs categorical_fields
        numerical_fields max_categories).null_ratios f =
      some (((recs.filter (fun r => (extractField r f).isNone)).length : ℝ) /
        (recs.length : ℝ)) := by
  have hne' : ¬(recs.isEmpty = true) := by simp [hne]
  have hrow : 0 < recs.length := List.length_pos.2 hne
  have hC : (StatisticalProfile.from_records recs categorical_fields
      numerical_fields max_categories).categorical =
      (categorical_fields.foldl
        (categoricalStep recs recs.length max_categories) ([], [])).1 := by
    simp only [StatisticalProfile.from_records]
    rw [if_neg hne']
  have hN : (StatisticalProfile.from_records recs categorical_fields
      numerical_fields max_categories).null_ratios =
      (numerical_fields.foldl (numericalStep recs recs.length)
        ([], (categorical_fields.foldl
          (categoricalStep recs recs.length max_categories) ([], [])).2)).2 := by
    simp only [StatisticalProfile.from_records]
    rw [if_neg hne']
  have hfold := foldl_categoricalStep_getEntry recs recs.length max_categories
    categorical_fields f hcnd hcf ([], [])
  constructor
  · intro hvne
    have hvne' : ¬((recs.filterMap (fun r =>
        (extractField r f).map valueToStr)).isEmpty = true) := by
      simp [hvne]
    constructor
    · intro hle
      refine ⟨(mostCommon (tally (recs.filterMap (fun r =>
          (extractField r f).map valueToStr)))).map
        (fun p => (p.1, (p.2 : ℝ) /
          ((recs.filterMap (fun r =>
            (extractField r f).map valueToStr)).length : ℝ))), ?_, ?_, ?_, ?_⟩
      · rw [hC, hfold.1, if_neg hvne', if_pos hle]
      · intro v hv
        have h1 : (v, (recs.filterMap (fun r =>
            (extractField r f).map valueToStr)).count v) ∈
            tally (recs.filterMap (fun r =>
              (extractField r f).map valueToStr)) :=
          List.mem_map_of_mem _ (mem_firstDedup.2 hv)
        have h2 := (List.mergeSort_perm (tally (recs.filterMap (fun r =>
            (extractField r f).map valueToStr)))
            (fun a b => b.2 ≤ a.2)).mem_iff.2 h1
        exact List.mem_map_of_mem
          (fun p => (p.1, (p.2 : ℝ) /
            ((recs.filterMap (fun r =>
              (extractField r f).map valueToStr)).length : ℝ))) h2
      · rw [List.map_map]
        rw [show ((Prod.fst ∘ fun p : String × ℕ => (p.1, (p.2 : ℝ) /
            ((recs.filterMap (fun r =>
              (extractField r f).map valueToStr)).length : ℝ)))) =
          Prod.fst from rfl]
        simp only [mostCommon]
        rw [((List.mergeSort_perm _ _).map Prod.fst).nodup_iff]
        rw [show tally (recs.filterMap (fun r =>
            (extractField r f).map valueToStr)) =
          (firstDedup (recs.filterMap (fun r =>
            (extractField r f).map valueToStr))).map
            (fun v => (v, (recs.filterMap (fun r =>
              (extractField r f).map valueToStr)).count v)) from rfl]
        rw [List.map_map]
        rw [show ((Prod.fst ∘ fun v : String => (v, (recs.filterMap (fun r =>
            (extractField r f).map valueToStr)).count v))) = id from rfl]
        rw [List.map_id]
        exact nodup_firstDedup _
      · rw [List.map_map]
        rw [show ((Prod.snd ∘ fun p : String × ℕ => (p.1, (p.2 : ℝ) /
            ((recs.filterMap (fun r =>
              (extractField r f).map valueToStr)).length : ℝ)))) =
          (fun p : String × ℕ => (p.2 : ℝ) /
            ((recs.filterMap (fun r =>
              (extractField r f).map valueToStr)).length : ℝ)) from rfl]
        simp only [mostCommon]
        rw [((List.mergeSort_perm _ _).map
          (fun p : String × ℕ => (p.2 : ℝ) /
            ((recs.filterMap (fun r =>
              (extractField r f).map valueToStr)).length : ℝ))).sum_eq]
        rw [show tally (recs.filterMap (fun r =>
            (extractField r f).map valueToStr)) =
          (firstDedup (recs.filterMap (fun r =>
            (extractField r f).map valueToStr))).map
            (fun v => (v, (recs.filterMap (fun r =>
              (extractField r f).map valueToStr)).count v)) from rfl]
        rw [List.map_map]
        rw [show (((fun p : String × ℕ => (p.2 : ℝ) /
            ((recs.filterMap (fun r =>
              (extractField r f).map valueToStr)).length : ℝ)) ∘
            (fun v : String => (v, (recs.filterMap (fun r =>
              (extractField r f).map valueToStr)).count v)))) =
          (fun v : String => (((recs.filterMap (fun r =>
            (extractField r f).map valueToStr)).count v : ℝ) /
            ((recs.filterMap (fun r =>
              (extractField r f).map valueToStr)).length : ℝ))) from rfl]
        rw [sum_map_div_aux]
        rw [show ((firstDedup (recs.filterMap (fun r =>
            (extractField r f).map valueToStr))).map
            (fun v : String => ((recs.filterMap (fun r =>
              (extractField r f).map valueToStr)).count v : ℝ))) =
          ((firstDedup (recs.filterMap (fun r =>
            (extractField r f).map valueToStr))).map
            (fun v : String => (recs.filterMap (fun r =>
              (extractField r f).map valueToStr)).count v)).map
            (fun n : ℕ => (n : ℝ)) by rw [List.map_map]; rfl]
        rw [← Nat.cast_list_sum]
        rw [((firstDedup_perm_dedup (recs.filterMap (fun r =>
            (extractField r f).map valueToStr))).map
          (fun v => (recs.filterMap (fun r =>
            (extractField r f).map valueToStr)).count v)).sum_eq]
        rw [List.sum_map_count_dedup_eq_length]
        have hlen : ((recs.filterMap (fun r =>
            (extractField r f).map valueToStr)).length : ℝ) ≠ 0 :=
          Nat.cast_ne_zero.2 (fun h => hvne (List.length_eq_zero.1 h))
        exact div_self hlen
    · intro hgt
      rw [hC, hfold.1, if_neg hvne', if_neg (not_le.2 hgt)]
      rfl
  · rw [hN, foldl_numericalStep_preserves recs recs.length numerical_fields f hnf]
    have h2 : getEntry (([] : List (String × NumStats)),
        (categorical_fields.foldl
          (categoricalStep recs recs.length max_categories) ([], [])).2).2 f =
        getEntry (categorical_fields.foldl
          (categoricalStep recs recs.length max_categories) ([], [])).2 f := rfl
    rw [h2, hfold.2, if_pos hrow]

/-- Witness for C8: three concrete records for field `"type"` (values
`"A"`, `"B"` and one null), tracked with `max_categories = 100`. -/
theorem c8_categorical_profile_witness :
    (∃ dist,
      getEntry (StatisticalProfile.from_records
        [[("type", Value.vStr "A")], [("type", Value.vStr "B")],
          [("type", Value.vNull)]] ["type"] [] 100).categorical "type" =
        some dist ∧
      (∀ v ∈ [[("type", Value.vStr "A")], [("type", Value.vStr "B")],
          [("type", Value.vNull)]].filterMap
            (fun r => (extractField r "type").map valueToStr),
        (v, ((([[("type", Value.vStr "A")], [("type", Value.vStr "B")],
            [("type", Value.vNull)]].filterMap
              (fun r => (extractField r "type").map valueToStr)).count v : ℝ) /
          (([[("type", Value.vStr "A")], [("type", Value.vStr "B")],
            [("type", Value.vNull)]].filterMap
              (fun r => (extractField r "type").map valueToStr)).length : ℝ))) ∈
          dist) ∧
      (dist.map Prod.fst).Nodup ∧
      (dist.map Prod.snd).sum = 1) ∧
    getEntry (StatisticalProfile.from_records
        [[("type", Value.vStr "A")], [("type", Value.vStr "B")],
          [("type", Value.vNull)]] ["type"] [] 100).null_ratios "type" =
      some ((([[("type", Value.vStr "A")], [("type", Value.vStr "B")],
          [("type", Value.vNull)]].filter
            (fun r => (extractField r "type").isNone)).length : ℝ) /
        (([[("type", Value.vStr "A")], [("type", Value.vStr "B")],
          [("type", Value.vNull)]] : List Record).length : ℝ)) := by
  have h := c8_categorical_profile
    [[("type", Value.vStr "A")], [("type", Value.vStr "B")],
      [("type", Value.vNull)]] ["type"] [] 100 "type"
    (List.cons_ne_nil _ _) (List.mem_singleton.2 rfl) (by simp)
    (List.not_mem_nil _)
  have hv : [[("type", Value.vStr "A")], [("type", Value.vStr "B")],
      [("type", Value.vNull)]].filterMap
        (fun r => (extractField r "type").map valueToStr) ≠ [] := by
    intro hcontra
    have : ("A" : String) ∈ ([] : List String) := by
      rw [← hcontra]
      exact List.mem_filterMap.2 ⟨[("type", Value.vStr "A")], by simp, rfl⟩
    simp at this
  have hle : (tally ([[("type", Value.vStr "A")], [("type", Value.vStr "B")],
      [("type", Value.vNull)]].filterMap
        (fun r => (extractField r "type").map valueToStr))).length ≤ 100 := by
    have hsub : (tally ([[("type", Value.vStr "A")], [("type", Value.vStr "B")],
        [("type", Value.vNull)]].filterMap
          (fun r => (extractField r "type").map valueToStr))).length =
        (firstDedup ([[("type", Value.vStr "A")], [("type", Value.vStr "B")],
          [("type", Value.vNull)]].filterMap
            (fun r => (extractField r "type").map valueToStr))).length := by
      simp [tally]
    rw [hsub]
    calc (firstDedup ([[("type", Value.vStr "A")], [("type", Value.vStr "B")],
        [("type", Value.vNull)]].filterMap
          (fun r => (extractField r "type").map valueToStr))).length
        ≤ ([[("type", Value.vStr "A")], [("type", Value.vStr "B")],
          [("type", Value.vNull)]].filterMap
            (fun r => (extractField r "type").map valueToStr)).length := by
          have := (firstDedup_perm_dedup ([[("type", Value.vStr "A")],
            [("type", Value.vStr "B")], [("type", Value.vNull)]].filterMap
              (fun r => (extractField r "type").map valueToStr))).length_eq
          rw [this]
          exact (List.dedup_sublist _).length_le
      _ ≤ ([[("type", Value.vStr "A")], [("type", Value.vStr "B")],
          [("type", Value.vNull)]] : List Record).length :=
            List.length_filterMap_le _ _
      _ ≤ 100 := by simp
  exact ⟨h.1 hv |>.1 hle, h.2⟩

end SentinelDQ
